import Mathlib

/-!
Verification development for the DobbyX game core (src/src/index.js,
src/src/commands/raid.js, and the rebel data-access layer).

The JavaScript source is shallowly embedded: JS `Map`s become association
lists in insertion order, JS `Set`s become duplicate-free lists, machine
numbers become `ℕ`/`ℤ` (all game quantities are small non-negative
integers; energy uses `ℤ` because the source subtracts unconditionally),
and the non-integral multipliers (`1.2`, `0.8 + Math.random() * 0.4`,
`loyalty / 1000`, …) become `ℚ` with `Math.floor` as `Nat.floor`.
Every call to `Math.random()`/`Date.now()`/id generation is replaced by an
explicit oracle parameter, so each function is a pure function of its
inputs and the drawn values.
-/

namespace DobbyX

/-- Association-list read, modelling JS `Map.prototype.get`. -/
def mapGet (m : List (String × α)) (k : String) : Option α :=
  (m.find? (fun p => p.1 == k)).map (fun p => p.2)

/-- Association-list write, modelling JS `Map.prototype.set`: an existing
key keeps its position, a new key is appended (JS insertion order). -/
def mapSet (m : List (String × α)) (k : String) (v : α) : List (String × α) :=
  if m.any (fun p => p.1 == k) then
    m.map (fun p => if p.1 == k then (k, v) else p)
  else m ++ [(k, v)]

/-- JS `Set.prototype.add` on a duplicate-free list. -/
def setAdd (s : List String) (x : String) : List String :=
  if s.contains x then s else s ++ [x]

/-- JS `Set.prototype.delete` on a duplicate-free list. -/
def setDelete (s : List String) (x : String) : List String :=
  s.filter (fun y => !(y == x))

/-- Substring test (the source uses `String.prototype.includes`). -/
def strIncludes (s pat : String) : Bool :=
  (s.splitOn pat).length > 1

/-- A rebel's four named attributes (src/index.js createRebel). -/
structure Stats where
  strength : ℕ
  intelligence : ℕ
  charisma : ℕ
  stealth : ℕ
deriving Repr, DecidableEq

/-- An inventory item (src/index.js addLootToInventory /
handleBuyDefensiveItem).  Timestamps are epoch milliseconds. -/
structure Item where
  id : String
  name : String
  type : String
  rarity : String
  value : ℕ
  acquiredFrom : String
  acquiredAt : ℕ
  activatedAt : Option ℕ
deriving Repr, DecidableEq

/-- A player entity (src/index.js createRebel).  Presentation-only fields
(specialAbilities, lastDailyMission, isNewUser) are omitted; no claim's
code path reads them. -/
structure Rebel where
  userId : String
  username : String
  «class» : String
  level : ℕ
  experience : ℕ
  energy : ℤ
  maxEnergy : ℤ
  loyaltyScore : ℕ
  corporateDamage : ℕ
  totalRaids : ℕ
  corporationsDefeated : ℕ
  dailyStreak : ℕ
  joinedAt : ℕ
  lastActive : ℕ
  currentZone : String
  reputation : String
  stats : Stats
deriving Repr, DecidableEq

/-- An active corporate countermeasure record (src/index.js
activateCountermeasure). -/
structure ActiveCountermeasure where
  id : String
  type : String
  target : String
  corporation : String
  startTime : ℕ
  endTime : ℕ
  severity : String
  effect : String
  blocked : Bool
deriving Repr, DecidableEq

/-- The `retaliation` sub-record of a corporation's countermeasure state
(src/index.js initializeGameData). -/
structure Retaliation where
  enabled : Bool
  targets : List String
  nextStrike : Option ℕ
deriving Repr, DecidableEq

/-- A corporation's countermeasure state (src/index.js initializeGameData). -/
structure CountermeasureState where
  active : List ActiveCountermeasure
  lastActivated : Option ℕ
  spyNetwork : ℕ
  defenseMatrix : ℕ
  retaliation : Retaliation
deriving Repr, DecidableEq

/-- A corporation's intelligence state (src/index.js initializeGameData):
`knownRebels` is a JS `Set`, `threatAssessment` a JS `Map` whose values
accumulate (possibly fractional) damage. -/
structure Intelligence where
  knownRebels : List String
  threatAssessment : List (String × ℚ)
  lastScan : Option ℕ
deriving Repr, DecidableEq

/-- An adversary entity (src/index.js initializeGameData). -/
structure Corporation where
  name : String
  description : String
  health : ℤ
  maxHealth : ℤ
  weakness : String
  loot : List String
  alertLevel : ℕ
  countermeasures : CountermeasureState
  intelligence : Intelligence
deriving Repr, DecidableEq

/-- A rebel's inventory (src/index.js createRebel: items [], capacity 20,
credits 100). -/
structure Inventory where
  items : List Item
  capacity : ℕ
  credits : ℕ
deriving Repr, DecidableEq

/-- A purchasable defensive item template (src/index.js
initializeCorporateCountermeasures). -/
structure DefensiveItem where
  name : String
  protection : ℕ
  duration : ℕ
  rarity : String
  cost : ℕ
deriving Repr, DecidableEq

/-- The fixed defensive-item catalog (src/index.js
initializeCorporateCountermeasures). -/
def defensiveItems : List (String × DefensiveItem) :=
  [ ("digital_shield",
     { name := "Digital Shield", protection := 75,
       duration := 3600000, rarity := "rare", cost := 500 }),
    ("encryption_cloak",
     { name := "Encryption Cloak", protection := 50,
       duration := 7200000, rarity := "uncommon", cost := 300 }),
    ("proxy_network",
     { name := "Proxy Network", protection := 90,
       duration := 1800000, rarity := "epic", cost := 800 }),
    ("sanctuary_pass",
     { name := "Sanctuary Pass", protection := 100,
       duration := 10800000, rarity := "legendary", cost := 1200 }) ]

/-- A countermeasure archetype (src/index.js
initializeCorporateCountermeasures). -/
structure CountermeasureType where
  name : String
  effect : String
  severity : String
  duration : ℕ
deriving Repr, DecidableEq

/-- The five fixed countermeasure archetypes, in catalog order. -/
def countermeasureTypes : List (String × CountermeasureType) :=
  [ ("cyber_attack",
     { name := "Cyber Attack", effect := "energy_drain",
       severity := "medium", duration := 1800000 }),
    ("surveillance_sweep",
     { name := "Surveillance Sweep",
       effect := "reduced_stealth", severity := "low", duration := 3600000 }),
    ("economic_warfare",
     { name := "Economic Warfare",
       effect := "credit_loss", severity := "high", duration := 2700000 }),
    ("propaganda_campaign",
     { name := "Propaganda Campaign",
       effect := "loyalty_reduction", severity := "medium", duration := 5400000 }),
    ("legal_action",
     { name := "Legal Action",
       effect := "activity_restriction", severity := "high", duration := 7200000 }) ]

/-- A team-raid formation template (src/index.js initializeTeamRaidSystem).
Fields absent on some formations (`stealthBonus`, `protectionBonus`,
`lootBonus`) are `Option`; the source reads them with `|| 0` / `|| 1.0`. -/
structure Formation where
  name : String
  minMembers : ℕ
  maxMembers : ℕ
  damageBonus : ℚ
  energyCost : ℚ
  stealthBonus : Option ℚ
  protectionBonus : Option ℚ
  lootBonus : Option ℚ
  requirements : List String
  cooldown : ℕ
deriving Repr, DecidableEq

/-- The fixed formation catalog (src/index.js initializeTeamRaidSystem). -/
def formations : List (String × Formation) :=
  [ ("assault_formation",
     { name := "Assault Formation", minMembers := 2,
       maxMembers := 5, damageBonus := 15/10, energyCost := 12/10,
       stealthBonus := none, protectionBonus := none, lootBonus := none,
       requirements := ["Protocol Hacker", "Data Liberator"], cooldown := 300000 }),
    ("stealth_formation",
     { name := "Stealth Formation", minMembers := 2,
       maxMembers := 4, damageBonus := 12/10, energyCost := 8/10,
       stealthBonus := some (7/10), protectionBonus := none, lootBonus := none,
       requirements := ["Model Trainer", "Community Organizer"], cooldown := 240000 }),
    ("guardian_formation",
     { name := "Guardian Formation", minMembers := 3,
       maxMembers := 5, damageBonus := 11/10, energyCost := 9/10,
       stealthBonus := none, protectionBonus := some (8/10), lootBonus := none,
       requirements := ["Enclave Guardian"], cooldown := 360000 }),
    ("balanced_formation",
     { name := "Balanced Formation", minMembers := 2,
       maxMembers := 5, damageBonus := 13/10, energyCost := 1,
       stealthBonus := none, protectionBonus := none, lootBonus := some (12/10),
       requirements := [], cooldown := 180000 }) ]

/-- src/index.js createRebel: the freshly created rebel record
(`now` stands for the `new Date()` calls). -/
def createRebel (userId username rebelClass : String) (now : ℕ) : Rebel :=
  { userId := userId
    username := username
    «class» := rebelClass
    level := 1
    experience := 0
    energy := 100
    maxEnergy := 100
    loyaltyScore := 0
    corporateDamage := 0
    totalRaids := 0
    corporationsDefeated := 0
    dailyStreak := 0
    joinedAt := now
    lastActive := now
    currentZone := "foundation"
    reputation := "Rookie Rebel"
    stats := { strength := 10, intelligence := 10, charisma := 10, stealth := 10 } }

/-- src/index.js createRebel: the freshly initialized inventory. -/
def initialInventory : Inventory :=
  { items := [], capacity := 20, credits := 100 }

/-- src/index.js initializeGameData: the OpenAI Corp entry of the
corporation catalog. -/
def openaiCorp : Corporation :=
  { name := "OpenAI Corp"
    description := "The closed-source overlords"
    health := 10000
    maxHealth := 10000
    weakness := "transparency"
    loot := ["Proprietary Models", "Closed APIs", "Corporate Secrets"]
    alertLevel := 0
    countermeasures :=
      { active := [], lastActivated := none, spyNetwork := 0, defenseMatrix := 100,
        retaliation := { enabled := false, targets := [], nextStrike := none } }
    intelligence := { knownRebels := [], threatAssessment := [], lastScan := none } }

/-- src/index.js gainExperience (lines 1055-1078): adds `amount`
experience, recomputes `newLevel = Math.floor(experience / 100) + 1`, and
applies the level-up block only when `newLevel > rebel.level`.  Returns
the updated rebel and the `leveledUp` flag. -/
def gainExperience (rebel : Rebel) (amount : ℕ) : Rebel × Bool :=
  let rebel := { rebel with experience := rebel.experience + amount }
  let newLevel := rebel.experience / 100 + 1
  if newLevel > rebel.level then
    ({ rebel with
        level := newLevel
        maxEnergy := (100 + (newLevel - 1) * 10 : ℕ)
        energy := (100 + (newLevel - 1) * 10 : ℕ)
        stats := { strength := rebel.stats.strength + 2
                   intelligence := rebel.stats.intelligence + 2
                   charisma := rebel.stats.charisma + 1
                   stealth := rebel.stats.stealth + 1 } }, true)
  else (rebel, false)

/-- src/index.js calculateDamage (lines 1892-1907).  The class multiplier
table maps to tenths (1.2 → 12/10 etc.); `Math.floor(base * (m/10))`
on natural `base` is `base * m / 10` in natural division. -/
def classMultiplierNum (c : String) : ℕ :=
  if c == "Protocol Hacker" then 12
  else if c == "Model Trainer" then 10
  else if c == "Data Liberator" then 11
  else if c == "Community Organizer" then 9
  else if c == "Enclave Guardian" then 8
  else 10

/-- src/index.js calculateDamage: base 50, +10 per level, +5 per full 100
loyalty, times the class multiplier, floored. -/
def calculateDamage (rebel : Rebel) : ℕ :=
  let baseClassDamage := 50
  let levelBonus := rebel.level * 10
  let loyaltyBonus := rebel.loyaltyScore / 100 * 5
  (baseClassDamage + levelBonus + loyaltyBonus) * classMultiplierNum rebel.«class» / 10

/-- The class multiplier as an exact rational, for relating
`calculateDamage` to the spec's floor formula. -/
def classMultiplierQ (c : String) : ℚ :=
  (classMultiplierNum c : ℚ) / 10

/-- src/index.js getCountermeasurePower (lines 1313-1317). -/
def getCountermeasurePower (countermeasure : ActiveCountermeasure) : ℕ :=
  if countermeasure.severity == "high" then 80
  else if countermeasure.severity == "medium" then 50
  else 25

/-- src/index.js getRebelProtection (lines 1292-1311): the highest
protection value among the rebel's active defensive items, or `none`
(`now` models `Date.now()`). -/
def getRebelProtection (inv : Option Inventory) (now : ℕ) : Option ℕ :=
  match inv with
  | none => none
  | some inventory =>
    let activeDefenses := inventory.items.filter (fun item =>
      match item.activatedAt, mapGet defensiveItems item.type with
      | some t, some d => now - t < d.duration
      | _, _ => false)
    if activeDefenses.length == 0 then none
    else some (activeDefenses.foldl (fun acc item =>
      max acc (((mapGet defensiveItems item.type).map DefensiveItem.protection).getD 0)) 0)

/-- The `switch (countermeasure.effect)` block of
src/index.js applyCountermeasureEffects (lines 1267-1289).  The source's
`Math.max(0, credits - creditLoss)` and
`Math.max(0, loyaltyScore - loyaltyLoss)` are truncated `ℕ` subtraction. -/
def applyCountermeasurePenalty (rebel : Rebel) (inv : Option Inventory)
    (countermeasure : ActiveCountermeasure) :
    Rebel × Option Inventory × ActiveCountermeasure :=
  if countermeasure.effect == "energy_drain" then
    let energyLoss : ℤ := if countermeasure.severity == "high" then 30
      else if countermeasure.severity == "medium" then 20 else 10
    ({ rebel with energy := max 0 (rebel.energy - energyLoss) }, inv, countermeasure)
  else if countermeasure.effect == "credit_loss" then
    match inv with
    | some inventory =>
      let creditLoss := if countermeasure.severity == "high" then 200
        else if countermeasure.severity == "medium" then 100 else 50
      (rebel, some { inventory with credits := inventory.credits - creditLoss },
        countermeasure)
    | none => (rebel, inv, countermeasure)
  else if countermeasure.effect == "loyalty_reduction" then
    let loyaltyLoss := if countermeasure.severity == "high" then 50
      else if countermeasure.severity == "medium" then 25 else 10
    ({ rebel with loyaltyScore := rebel.loyaltyScore - loyaltyLoss }, inv,
      countermeasure)
  else (rebel, inv, countermeasure)

/-- src/index.js applyCountermeasureEffects (lines 1257-1290): block the
countermeasure when active protection meets its power, else apply the
penalty. -/
def applyCountermeasureEffects (rebel : Rebel) (inv : Option Inventory)
    (countermeasure : ActiveCountermeasure) (now : ℕ) :
    Rebel × Option Inventory × ActiveCountermeasure :=
  match getRebelProtection inv now with
  | some lvl =>
    if lvl ≥ getCountermeasurePower countermeasure then
      (rebel, inv, { countermeasure with blocked := true })
    else applyCountermeasurePenalty rebel inv countermeasure
  | none => applyCountermeasurePenalty rebel inv countermeasure

/-- src/index.js activateCountermeasure:
`availableCountermeasures[Math.floor(Math.random() * 5)]`; the draw
`pick` is always in `[0, 5)`, out-of-range values yield a junk entry. -/
def selectCountermeasureType (pick : ℕ) : String × CountermeasureType :=
  (countermeasureTypes.get? pick).getD
    ("", { name := "", effect := "", severity := "", duration := 0 })

/-- src/index.js activateCountermeasure (lines 1225-1255): pick an
archetype, build the active record, apply its effect, and store the final
record (the source pushes the record first and then mutates its `blocked`
flag in place; the stored record is the post-effect one either way).
`pick` and `cmId` model the random draws, `now` models `Date.now()`. -/
def activateCountermeasure (targetCorp : String) (corporation : Corporation)
    (rebel : Rebel) (inv : Option Inventory) (pick : ℕ) (cmId : String)
    (now : ℕ) : Corporation × Rebel × Option Inventory :=
  let picked := selectCountermeasureType pick
  let activeCountermeasure : ActiveCountermeasure :=
    { id := cmId, type := picked.1, target := rebel.userId,
      corporation := targetCorp, startTime := now,
      endTime := now + picked.2.duration, severity := picked.2.severity,
      effect := picked.2.effect, blocked := false }
  let applied := applyCountermeasureEffects rebel inv activeCountermeasure now
  let corporation := { corporation with countermeasures :=
    { corporation.countermeasures with
        active := corporation.countermeasures.active ++ [applied.2.2]
        lastActivated := some now } }
  (corporation, applied.1, applied.2.1)

/-- The random draws consumed by one `processCorporateResponse` call:
`roll1`/`roll2` are the two `Math.random() * 100` draws, `pick1`/`id1`
and `pick2`/`id2` the archetype index and generated id of the up to two
`activateCountermeasure` calls, `now` is `Date.now()`. -/
structure CmOracle where
  roll1 : ℚ
  pick1 : ℕ
  id1 : String
  roll2 : ℚ
  pick2 : ℕ
  id2 : String
  now : ℕ

/-- src/index.js checkCountermeasureActivation (lines 1204-1223): a
level-proportional activation roll, then an independent high-damage
immediate-response roll. -/
def checkCountermeasureActivation (targetCorp : String)
    (corporation : Corporation) (rebel : Rebel) (inv : Option Inventory)
    (damage : ℚ) (o : CmOracle) : Corporation × Rebel × Option Inventory :=
  let activationChance : ℚ := corporation.alertLevel * 15
  let afterFirst :=
    if o.roll1 < activationChance then
      activateCountermeasure targetCorp corporation rebel inv o.pick1 o.id1 o.now
    else (corporation, rebel, inv)
  if damage > 300 then
    let immediateChance : ℚ := min 80 (damage / 5)
    if o.roll2 < immediateChance then
      activateCountermeasure targetCorp afterFirst.1 afterFirst.2.1
        afterFirst.2.2 o.pick2 o.id2 o.now
    else afterFirst
  else afterFirst

/-- src/index.js processCorporateResponse (lines 1185-1202): record the
rebel in corporate intelligence, raise the alert level by
`Math.floor(damage / 200)` capped at 5, then evaluate countermeasure
activation.  `damage` is `ℚ` because the coordinated-raid path passes the
non-integral `totalDamage / members.length`. -/
def processCorporateResponse (targetCorp : String) (corporation : Corporation)
    (rebel : Rebel) (inv : Option Inventory) (damage : ℚ) (o : CmOracle) :
    Corporation × Rebel × Option Inventory :=
  let currentThreat :=
    (mapGet corporation.intelligence.threatAssessment rebel.userId).getD 0
  let corporation := { corporation with intelligence :=
    { corporation.intelligence with
        knownRebels := setAdd corporation.intelligence.knownRebels rebel.userId
        threatAssessment := mapSet corporation.intelligence.threatAssessment
          rebel.userId (currentThreat + damage) } }
  let alertIncrease : ℕ := ⌊damage / 200⌋₊
  let corporation := { corporation with
    alertLevel := min 5 (corporation.alertLevel + alertIncrease) }
  checkCountermeasureActivation targetCorp corporation rebel inv damage o

/-- src/index.js getItemType (lines 1131-1137). -/
def getItemType (itemName : String) : String :=
  if strIncludes itemName "Model" || strIncludes itemName "AI" then "ai_model"
  else if strIncludes itemName "Data" || strIncludes itemName "Information" then "data"
  else if strIncludes itemName "Tool" || strIncludes itemName "Software" then "tool"
  else if strIncludes itemName "Secret" || strIncludes itemName "Intel" then "intel"
  else "resource"

/-- src/index.js getItemRarity (lines 1139-1145). -/
def getItemRarity (damage : ℕ) : String :=
  if damage > 500 then "legendary"
  else if damage > 300 then "epic"
  else if damage > 150 then "rare"
  else if damage > 75 then "uncommon"
  else "common"

/-- The random draws consumed per loop index by addLootToInventory:
the `Math.random() < 0.15` defensive-item roll, the defensive-type and
loot-table indices, the `Math.floor(Math.random() * 50)` value bonus, and
the generated item id. -/
structure LootOracle where
  isDefensiveRoll : ℕ → Bool
  defensePick : ℕ → ℕ
  lootPick : ℕ → ℕ
  valueRoll : ℕ → ℕ
  itemId : ℕ → String

/-- The item built in iteration `i` of the addLootToInventory loop
(src/index.js lines 1091-1124).  `Math.floor(defensiveItem.cost * 0.8)`
is exact on the catalog costs, embedded as `cost * 8 / 10`. -/
def makeLootItem (corporation : Corporation) (damage : ℕ) (o : LootOracle)
    (now i : ℕ) : Item :=
  let isDefensiveItem := damage > 200 && o.isDefensiveRoll i
  if isDefensiveItem then
    let randomDefenseType := ((defensiveItems.map Prod.fst).get? (o.defensePick i)).getD ""
    let defensiveItem := (mapGet defensiveItems randomDefenseType).getD
      { name := "", protection := 0, duration := 0, rarity := "", cost := 0 }
    { id := o.itemId i, name := defensiveItem.name, type := randomDefenseType,
      rarity := defensiveItem.rarity, value := defensiveItem.cost * 8 / 10,
      acquiredFrom := corporation.name, acquiredAt := now, activatedAt := none }
  else
    let randomItem := (corporation.loot.get? (o.lootPick i)).getD ""
    { id := o.itemId i, name := randomItem, type := getItemType randomItem,
      rarity := getItemRarity damage, value := damage / 10 + o.valueRoll i,
      acquiredFrom := corporation.name, acquiredAt := now, activatedAt := none }

/-- The `for (let i = 0; i < numItems; i++)` loop of addLootToInventory
(src/index.js lines 1088-1125): stops early (`break`) once the inventory
is at capacity, else pushes the item for the current index. -/
def addLootItems (corporation : Corporation) (damage : ℕ) (o : LootOracle)
    (now : ℕ) : Inventory → ℕ → ℕ → Inventory
  | inventory, _, 0 => inventory
  | inventory, i, n + 1 =>
    if inventory.items.length ≥ inventory.capacity then inventory
    else
      addLootItems corporation damage o now
        { inventory with
            items := inventory.items ++ [makeLootItem corporation damage o now i] }
        (i + 1) n

/-- src/index.js addLootToInventory (lines 1081-1129): award
`min(3, floor(damage / 100) + 1)` items (truncating at capacity) and then
`floor(damage / 5)` credits. -/
def addLootToInventory (inventory : Inventory) (corporation : Corporation)
    (damage : ℕ) (o : LootOracle) (now : ℕ) : Inventory :=
  let numItems := min 3 (damage / 100 + 1)
  let inventory := addLootItems corporation damage o now inventory 0 numItems
  { inventory with credits := inventory.credits + damage / 5 }

/-- The random draws and clock of one solo raid: `u` is the damage
multiplier `0.8 + Math.random() * 0.4 ∈ [0.8, 1.2)`. -/
structure RaidOracle where
  u : ℚ
  loot : LootOracle
  cm : CmOracle
  now : ℕ

/-- The entities and flags produced by one solo raid. -/
structure RaidOutcome where
  rebel : Rebel
  corporation : Corporation
  inventory : Option Inventory
  actualDamage : ℕ
  isDefeated : Bool
  expGained : ℕ
  leveledUp : Bool

/-- The corporation-health mutation of one solo raid, exactly as
executeRaid performs it: clamp at 0 (src/index.js line 1790), then reset
to maxHealth when defeated (lines 1804-1806). -/
def applyRaidDamage (corporation : Corporation) (actualDamage : ℕ) :
    Corporation :=
  let corporation := { corporation with
    health := max 0 (corporation.health - (actualDamage : ℤ)) }
  if corporation.health ≤ 0 then { corporation with health := corporation.maxHealth }
  else corporation

/-- src/index.js executeRaid (lines 1775-1890), the state-mutating core:
damage roll, health clamp, rebel stat updates, experience gain, defeat
reset and bonuses, loot award, and corporate response.  Achievement and
global-event bookkeeping and all presentation are omitted; they do not
touch the fields any claim concerns. -/
def executeRaid (targetCorp : String) (rebel : Rebel)
    (corporation : Corporation) (inv : Option Inventory) (o : RaidOracle) :
    RaidOutcome :=
  let damage := calculateDamage rebel
  let actualDamage : ℕ := ⌊(damage : ℚ) * o.u⌋₊
  let corporation := { corporation with
    health := max 0 (corporation.health - (actualDamage : ℤ)) }
  let rebel := { rebel with
      energy := rebel.energy - 25
      corporateDamage := rebel.corporateDamage + actualDamage
      loyaltyScore := rebel.loyaltyScore + actualDamage / 10
      totalRaids := rebel.totalRaids + 1
      lastActive := o.now }
  let expGained := actualDamage / 20 + 10
  let gained := gainExperience rebel expGained
  let rebel := gained.1
  let isDefeated := corporation.health ≤ 0
  let corporation :=
    if isDefeated then { corporation with health := corporation.maxHealth }
    else corporation
  let rebel :=
    if isDefeated then
      { rebel with loyaltyScore := rebel.loyaltyScore + 100
                   corporationsDefeated := rebel.corporationsDefeated + 1 }
    else rebel
  let inv := inv.map (fun inventory =>
    addLootToInventory inventory corporation actualDamage o.loot o.now)
  let response := processCorporateResponse targetCorp corporation rebel inv
    (actualDamage : ℚ) o.cm
  { rebel := response.2.1, corporation := response.1,
    inventory := response.2.2, actualDamage := actualDamage,
    isDefeated := decide isDefeated, expGained := expGained,
    leveledUp := gained.2 }

/-- One member's entry in a coordinated raid's result record
(src/index.js executeCoordinatedRaid, lines 2922-2926; the source stores
the member's rebel object). -/
structure MemberResult where
  member : Rebel
  damage : ℕ
  energyUsed : ℕ
deriving Repr, DecidableEq

/-- The loot generated for a team raid (src/index.js generateTeamLoot). -/
structure TeamLoot where
  credits : ℕ
  items : List Item
deriving Repr, DecidableEq

/-- A completed party's result record (src/index.js lines 2968-2973). -/
structure RaidResults where
  totalDamage : ℕ
  memberResults : List MemberResult
  loot : TeamLoot
  timestamp : ℕ
deriving Repr, DecidableEq

/-- A raid party.  The creation command is outside src/; fields follow
their uses in src/index.js (leader, members array, readyMembers Set,
target, formation, lifecycle state, results) and the spec's §3 record. -/
structure RaidParty where
  id : String
  leader : String
  members : List String
  readyMembers : List String
  target : String
  formation : String
  state : String
  results : Option RaidResults
deriving Repr, DecidableEq

/-- The slice of the game's global maps that the team-raid paths touch. -/
structure TeamState where
  rebels : List (String × Rebel)
  corporations : List (String × Corporation)
  inventory : List (String × Inventory)
  raidParties : List (String × RaidParty)
deriving Repr, DecidableEq

/-- The random draws and clock of one coordinated raid: per member
position, the `Math.floor(Math.random() * 200)` base-damage draw and a
countermeasure oracle; per team-loot item index, the loot/value/id draws;
`stealthRoll` is the `Math.random()` compared against the formation's
stealth bonus. -/
structure TeamOracle where
  baseRoll : ℕ → ℕ
  lootPick : ℕ → ℕ
  valueRoll : ℕ → ℕ
  itemId : ℕ → String
  stealthRoll : ℚ
  cm : ℕ → CmOracle
  now : ℕ

/-- The per-member damage/energy loop of executeCoordinatedRaid
(src/index.js lines 2907-2927): threads the rebels map, accumulates total
damage and member results, and skips missing members.  The oracle index
advances with the member's position in the list. -/
def teamMemberLoop (formation : Formation) (o : TeamOracle) :
    List String → ℕ → List (String × Rebel) → ℕ → List MemberResult →
    List (String × Rebel) × ℕ × List MemberResult
  | [], _, rebels, totalDamage, results => (rebels, totalDamage, results)
  | memberId :: rest, i, rebels, totalDamage, results =>
    match mapGet rebels memberId with
    | none => teamMemberLoop formation o rest (i + 1) rebels totalDamage results
    | some member =>
      let baseDamage := o.baseRoll i + 100
      let formationDamage : ℕ := ⌊(baseDamage : ℚ) * formation.damageBonus⌋₊
      let finalDamage : ℕ :=
        ⌊(formationDamage : ℚ) * (1 + (member.loyaltyScore : ℚ) / 1000)⌋₊
      let energyCost : ℕ := ⌊(30 : ℚ) * formation.energyCost⌋₊
      let member := { member with
        energy := max 0 (member.energy - (energyCost : ℤ)) }
      teamMemberLoop formation o rest (i + 1) (mapSet rebels memberId member)
        (totalDamage + finalDamage)
        (results ++ [{ member := member, damage := finalDamage,
                       energyUsed := energyCost }])

/-- src/index.js generateTeamLoot (lines 2985-3014):
`Math.floor((totalDamage / 3) * lootMultiplier)` credits and
`min(members * 2, floor(totalDamage / 150))` items. -/
def generateTeamLoot (corporation : Corporation) (formation : Formation)
    (memberCount totalDamage : ℕ) (o : TeamOracle) : TeamLoot :=
  let lootMultiplier := formation.lootBonus.getD 1
  let credits : ℕ := ⌊((totalDamage : ℚ) / 3) * lootMultiplier⌋₊
  let itemCount := min (memberCount * 2) (totalDamage / 150)
  let items := (List.range itemCount).map (fun i =>
    let randomItem := (corporation.loot.get? (o.lootPick i)).getD ""
    ({ id := o.itemId i, name := randomItem, type := getItemType randomItem,
       rarity := getItemRarity totalDamage,
       value := ⌊((totalDamage : ℚ) / (memberCount : ℚ)) / 8⌋₊ + o.valueRoll i,
       acquiredFrom := "Team Raid - " ++ corporation.name,
       acquiredAt := o.now, activatedAt := none } : Item))
  { credits := credits, items := items }

/-- The inner `teamLoot.items.forEach` of distributeTeamLoot (src/index.js
lines 3027-3033): push each item whose index falls to this member
(round-robin), each guarded by the capacity check. -/
def pushTeamItems (memberCount idx : ℕ) : Inventory → List Item → ℕ → Inventory
  | inventory, [], _ => inventory
  | inventory, item :: rest, itemIndex =>
    let inventory :=
      if itemIndex % memberCount == idx then
        if inventory.items.length < inventory.capacity then
          { inventory with items := inventory.items ++ [item] }
        else inventory
      else inventory
    pushTeamItems memberCount idx inventory rest (itemIndex + 1)

/-- The `raidParty.members.forEach((memberId, index) => ...)` of
distributeTeamLoot (src/index.js lines 3019-3034), threading the
inventory map. -/
def distributeLoop : List String → ℕ → ℕ → List Item → ℕ →
    List (String × Inventory) → List (String × Inventory)
  | [], _, _, _, _, invs => invs
  | memberId :: rest, index, creditsPerMember, items, memberCount, invs =>
    let invs := match mapGet invs memberId with
      | none => invs
      | some inventory =>
        let inventory :=
          { inventory with credits := inventory.credits + creditsPerMember }
        mapSet invs memberId (pushTeamItems memberCount index inventory items 0)
    distributeLoop rest (index + 1) creditsPerMember items memberCount invs

/-- src/index.js distributeTeamLoot (lines 3016-3035): credits split
evenly (floored), items round-robin, skipping members without an
inventory. -/
def distributeTeamLoot (members : List String) (teamLoot : TeamLoot)
    (invs : List (String × Inventory)) : List (String × Inventory) :=
  let creditsPerMember := teamLoot.credits / members.length
  distributeLoop members 0 creditsPerMember teamLoot.items members.length invs

/-- The per-member countermeasure loop of executeCoordinatedRaid
(src/index.js lines 2940-2947), threading the corporation and the
rebels/inventory maps through successive processCorporateResponse calls. -/
def teamResponseLoop (targetCorp : String) (damage : ℚ) (o : TeamOracle) :
    List String → ℕ → Corporation → List (String × Rebel) →
    List (String × Inventory) →
    Corporation × List (String × Rebel) × List (String × Inventory)
  | [], _, corporation, rebels, invs => (corporation, rebels, invs)
  | memberId :: rest, i, corporation, rebels, invs =>
    match mapGet rebels memberId with
    | none =>
      teamResponseLoop targetCorp damage o rest (i + 1) corporation rebels invs
    | some member =>
      let r := processCorporateResponse targetCorp corporation member
        (mapGet invs memberId) damage (o.cm i)
      let rebels := mapSet rebels memberId r.2.1
      let invs := match r.2.2 with
        | some inventory => mapSet invs memberId inventory
        | none => invs
      teamResponseLoop targetCorp damage o rest (i + 1) r.1 rebels invs

/-- src/index.js executeCoordinatedRaid (lines 2899-2983): per-member
damage and energy cost, ONE combined health clamp on the target (with no
defeat reset), team loot generation and distribution, and per-member
corporate response gated by the formation's stealth bonus; the party is
marked completed with its result record.  Returns `none` when the target
corporation or formation lookup fails (the source would throw).  The
delayed party deletion (a 5-minute setTimeout) is not modeled. -/
def executeCoordinatedRaid (st : TeamState) (raidParty : RaidParty)
    (o : TeamOracle) : Option TeamState :=
  match mapGet st.corporations raidParty.target,
        mapGet formations raidParty.formation with
  | some corporation, some formation =>
    let loop := teamMemberLoop formation o raidParty.members 0 st.rebels 0 []
    let rebels := loop.1
    let totalDamage := loop.2.1
    let memberResults := loop.2.2
    let corporation := { corporation with
      health := max 0 (corporation.health - (totalDamage : ℤ)) }
    let teamLoot :=
      generateTeamLoot corporation formation raidParty.members.length totalDamage o
    let invs := distributeTeamLoot raidParty.members teamLoot st.inventory
    let stealthBonus := formation.stealthBonus.getD 0
    let response :=
      if o.stealthRoll > stealthBonus then
        teamResponseLoop raidParty.target
          ((totalDamage : ℚ) / (raidParty.members.length : ℚ)) o
          raidParty.members 0 corporation rebels invs
      else (corporation, rebels, invs)
    let results : RaidResults :=
      { totalDamage := totalDamage, memberResults := memberResults,
        loot := teamLoot, timestamp := o.now }
    let raidParty := { raidParty with
      state := "completed"
      results := some results }
    some { rebels := response.2.1
           corporations := mapSet st.corporations raidParty.target response.1
           inventory := response.2.2
           raidParties := mapSet st.raidParties raidParty.id raidParty }
  | _, _ => none

/-- The typed outcome of a team-raid execution request. -/
inductive TeamRaidRes where
  | partyNotFound
  | notLeader
  | notAllReady
  | executed
  | lookupFailed
deriving Repr, DecidableEq

/-- src/index.js handleExecuteTeamRaid (lines 2782-2814): party lookup,
leader-only check, all-ready check, then the coordinated raid.  The three
error replies change no game state.  `lookupFailed` models the source
throwing inside executeCoordinatedRaid on a bad target or formation. -/
def handleExecuteTeamRaid (st : TeamState) (partyId userId : String)
    (o : TeamOracle) : TeamRaidRes × TeamState :=
  match mapGet st.raidParties partyId with
  | none => (.partyNotFound, st)
  | some raidParty =>
    if raidParty.leader != userId then (.notLeader, st)
    else if raidParty.readyMembers.length < raidParty.members.length then
      (.notAllReady, st)
    else
      match executeCoordinatedRaid st raidParty o with
      | some st' => (.executed, st')
      | none => (.lookupFailed, st)

/-- The typed failures of the defensive-item purchase. -/
inductive BuyError where
  | inventoryNotFound
  | invalidItem
  | insufficientCredits
  | inventoryFull
deriving Repr, DecidableEq

/-- src/index.js handleBuyDefensiveItem (lines 2662-2722): validations in
source order (inventory, item, credits, capacity), then the purchase —
an all-or-nothing mutation.  `itemId`/`now` model the generated id and
`Date.now()`. -/
def handleBuyDefensiveItem (inv : Option Inventory) (itemType : String)
    (itemId : String) (now : ℕ) : Except BuyError Inventory :=
  match inv with
  | none => .error .inventoryNotFound
  | some inventory =>
    match mapGet defensiveItems itemType with
    | none => .error .invalidItem
    | some defensiveItem =>
      if inventory.credits < defensiveItem.cost then .error .insufficientCredits
      else if inventory.items.length ≥ inventory.capacity then
        .error .inventoryFull
      else
        let newItem : Item :=
          { id := itemId, name := defensiveItem.name,
            type := itemType, rarity := defensiveItem.rarity,
            value := defensiveItem.cost, acquiredFrom := "Defense Shop",
            acquiredAt := now, activatedAt := none }
        .ok { inventory with
          credits := inventory.credits - defensiveItem.cost
          items := inventory.items ++ [newItem] }

/-- A marketplace listing.  The listing-creation command is outside src/;
fields follow their uses in cleanupExpiredListings (sellerId, item,
expiresAt) plus the spec's §3 listing record (price). -/
structure Listing where
  sellerId : String
  item : Item
  price : ℕ
  expiresAt : ℕ
deriving Repr, DecidableEq

/-- The per-expired-listing inventory effect of cleanupExpiredListings
(src/index.js lines 2099-2103): the escrowed item is pushed back to the
seller only when the seller's inventory exists and has free capacity;
otherwise nothing happens to any inventory. -/
def returnListingItem (invs : List (String × Inventory)) (listing : Listing) :
    List (String × Inventory) :=
  match mapGet invs listing.sellerId with
  | some sellerInventory =>
    if sellerInventory.items.length < sellerInventory.capacity then
      mapSet invs listing.sellerId
        { sellerInventory with
            items := sellerInventory.items ++ [listing.item] }
    else invs
  | none => invs

/-- src/index.js cleanupExpiredListings (lines 2093-2114): every listing
whose expiry has passed is deleted from the marketplace unconditionally;
its item goes through `returnListingItem`. -/
def cleanupExpiredListings (now : ℕ) :
    List (String × Listing) → List (String × Inventory) →
    List (String × Listing) × List (String × Inventory)
  | [], invs => ([], invs)
  | (listingId, listing) :: rest, invs =>
    if listing.expiresAt ≤ now then
      cleanupExpiredListings now rest (returnListingItem invs listing)
    else
      let r := cleanupExpiredListings now rest invs
      ((listingId, listing) :: r.1, r.2)

/-- An auction-house record (src/index.js processAuctionTimers; the
auction-creation command is outside src/, fields follow their uses there
and the spec's §3 auction record). -/
structure Auction where
  sellerId : String
  item : Item
  startingBid : ℕ
  currentBid : ℕ
  currentBidder : Option String
  endTime : ℕ
  status : String
  winner : Option String
deriving Repr, DecidableEq

/-- One auction's step of processAuctionTimers (src/index.js lines
2120-2151).  With a winning bid: the item goes to the winner and the
seller is paid `currentBid - Math.floor(currentBid * 0.1)` (the house fee
is `currentBid / 10`) only when the winner has capacity — otherwise the
auction is left untouched (still active).  With no winning bid: the
auction is marked expired and the item returns to the seller only if the
seller has capacity. -/
def processAuction (now : ℕ) (a : Auction)
    (invs : List (String × Inventory)) :
    Auction × List (String × Inventory) :=
  if a.status = "active" ∧ a.endTime ≤ now then
    let noBids := fun (invs : List (String × Inventory)) =>
      match mapGet invs a.sellerId with
      | some sellerInventory =>
        if sellerInventory.items.length < sellerInventory.capacity then
          ({ a with status := "expired" },
           mapSet invs a.sellerId
             { sellerInventory with
                 items := sellerInventory.items ++ [a.item] })
        else ({ a with status := "expired" }, invs)
      | none => ({ a with status := "expired" }, invs)
    match a.currentBidder with
    | some winnerId =>
      if a.currentBid > a.startingBid then
        match mapGet invs winnerId with
        | some winnerInventory =>
          if winnerInventory.items.length < winnerInventory.capacity then
            let invs := mapSet invs winnerId
              { winnerInventory with
                  items := winnerInventory.items ++ [a.item] }
            let invs := match mapGet invs a.sellerId with
              | some sellerInventory =>
                let houseFee := a.currentBid / 10
                let sellerAmount := a.currentBid - houseFee
                mapSet invs a.sellerId
                  { sellerInventory with
                      credits := sellerInventory.credits + sellerAmount }
              | none => invs
            ({ a with status := "completed", winner := a.currentBidder }, invs)
          else (a, invs)
        | none => (a, invs)
      else noBids invs
    | none => noBids invs
  else (a, invs)

/-- src/index.js processAuctionTimers (lines 2116-2157): the end-time
sweep over the auction map in insertion order, threading the inventory
map. -/
def processAuctionTimers (now : ℕ) :
    List (String × Auction) → List (String × Inventory) →
    List (String × Auction) × List (String × Inventory)
  | [], invs => ([], invs)
  | (auctionId, a) :: rest, invs =>
    let step := processAuction now a invs
    let r := processAuctionTimers now rest step.2
    ((auctionId, step.1) :: r.1, r.2)

/-- src/index.js setCooldown (lines 1148-1152): per-user inner cooldown
Map keyed by action, value `Date.now() + duration * 1000`. -/
def setCooldown (cooldowns : List (String × List (String × ℕ)))
    (userId action : String) (duration now : ℕ) :
    List (String × List (String × ℕ)) :=
  let userCooldowns := (mapGet cooldowns userId).getD []
  mapSet cooldowns userId (mapSet userCooldowns action (now + duration * 1000))

/-- src/index.js isOnCooldown (lines 1154-1162). -/
def isOnCooldown (cooldowns : List (String × List (String × ℕ)))
    (userId action : String) (now : ℕ) : Bool :=
  match mapGet cooldowns userId with
  | none => false
  | some userCooldowns =>
    match mapGet userCooldowns action with
    | none => false
    | some cooldownEnd => decide (now < cooldownEnd)

/-- A direct trade record.  Modelled from the spec: the trade-creation
command is outside src/; §3 gives trade = id, seller, buyer (optional),
item, price, status, created timestamp.  createBackup serializes these
scalar fields generically. -/
structure Trade where
  initiator : String
  target : Option String
  item : Item
  price : ℕ
  status : String
  createdAt : ℕ
deriving Repr, DecidableEq

/-- The slice of the game's global maps that createBackup serializes and
the round-trip claims observe. -/
structure WorldState where
  rebels : List (String × Rebel)
  corporations : List (String × Corporation)
  inventory : List (String × Inventory)
  activeTrades : List (String × Trade)
  raidParties : List (String × RaidParty)
  cooldowns : List (String × List (String × ℕ))
deriving Repr, DecidableEq

/-- The content of a backup file (src/index.js createBackup lines
2176-2191): `JSON.stringify(Object.fromEntries(map))` per top-level map.
The shape mirrors `WorldState`; what differs is what survives
serialization. -/
structure BackupData where
  rebels : List (String × Rebel)
  corporations : List (String × Corporation)
  inventory : List (String × Inventory)
  activeTrades : List (String × Trade)
  raidParties : List (String × RaidParty)
  cooldowns : List (String × List (String × ℕ))
deriving Repr, DecidableEq

/-- src/index.js createBackup (lines 2171-2225): the backup file's
content.  Plain objects, arrays, numbers and strings survive
`JSON.stringify`, but a JS `Set` or a nested `Map` is serialized as `{}`
(no enumerable own properties), so `intelligence.knownRebels`,
`intelligence.threatAssessment`, a party's `readyMembers` and every
per-user cooldown table are written out empty. -/
def createBackup (s : WorldState) : BackupData :=
  { rebels := s.rebels
    corporations := s.corporations.map (fun p =>
      (p.1, { p.2 with intelligence :=
        { knownRebels := [], threatAssessment := [],
          lastScan := p.2.intelligence.lastScan } }))
    inventory := s.inventory
    activeTrades := s.activeTrades
    raidParties := s.raidParties.map (fun p =>
      (p.1, { p.2 with readyMembers := [] }))
    cooldowns := s.cooldowns.map (fun p => (p.1, [])) }

/-- src/index.js loadBackup (lines 2227-2262): each map is restored with
`new Map(Object.entries(backupData.x || {}))`, which reproduces the
stored entries as-is. -/
def loadBackup (b : BackupData) : WorldState :=
  { rebels := b.rebels
    corporations := b.corporations
    inventory := b.inventory
    activeTrades := b.activeTrades
    raidParties := b.raidParties
    cooldowns := b.cooldowns }

/-- The snapshot round trip: loadBackup after createBackup. -/
def backupRestore (s : WorldState) : WorldState :=
  loadBackup (createBackup s)

end DobbyX

namespace RaidCommand

/-- src/commands/raid.js calculateDamage (lines 150-165): the slash-command
raid path's copy of the damage formula, embedded independently of
`DobbyX.calculateDamage`. -/
def classMultiplierNum (c : String) : ℕ :=
  if c == "Protocol Hacker" then 12
  else if c == "Model Trainer" then 10
  else if c == "Data Liberator" then 11
  else if c == "Community Organizer" then 9
  else if c == "Enclave Guardian" then 8
  else 10

/-- src/commands/raid.js calculateDamage: base 50, +10 per level, +5 per
full 100 loyalty, times the class multiplier, floored. -/
def calculateDamage (rebel : DobbyX.Rebel) : ℕ :=
  let baseClassDamage := 50
  let levelBonus := rebel.level * 10
  let loyaltyBonus := rebel.loyaltyScore / 100 * 5
  (baseClassDamage + levelBonus + loyaltyBonus) * classMultiplierNum rebel.«class» / 10

end RaidCommand

namespace RebelDAL

/-- Rebel data-access layer, calculateLevel (line 166-169): the documented
level formula `min(100, floor(sqrt(experience / 100)) + 1)`.
`Nat.sqrt (e / 100)` equals `floor(sqrt(e / 100))` over the reals because
`k^2 ≤ floor(e/100)` iff `k^2 ≤ e/100` for integer `k^2`. -/
def calculateLevel (experience : ℕ) : ℕ :=
  min 100 (Nat.sqrt (experience / 100) + 1)

end RebelDAL

namespace DobbyX

/-- A fixed loot oracle for concrete runs: never a defensive item, always
index-0 picks, zero value bonus. -/
def sampleLootOracle : LootOracle :=
  { isDefensiveRoll := fun _ => false, defensePick := fun _ => 0,
    lootPick := fun _ => 0, valueRoll := fun _ => 0, itemId := fun _ => "item" }

/-- A fixed countermeasure oracle: both percentage rolls 0, index-0 picks. -/
def sampleCmOracle : CmOracle :=
  { roll1 := 0, pick1 := 0, id1 := "cm1", roll2 := 0, pick2 := 0,
    id2 := "cm2", now := 0 }

/-- The solo-raid oracle of the spec's scenario: the damage multiplier
draw fixed at U = 1.0. -/
def sampleRaidOracle : RaidOracle :=
  { u := 1, loot := sampleLootOracle, cm := sampleCmOracle, now := 0 }

/-- A fresh level-1, loyalty-0 Model Trainer. -/
def sampleRebel : Rebel := createRebel "u1" "neo" "Model Trainer" 0

/-- A fixed team-raid oracle: base-damage draws 0, stealth roll 0. -/
def sampleTeamOracle : TeamOracle :=
  { baseRoll := fun _ => 0, lootPick := fun _ => 0, valueRoll := fun _ => 0,
    itemId := fun _ => "item", stealthRoll := 0, cm := fun _ => sampleCmOracle,
    now := 0 }

/-- A concrete loot item. -/
def sampleItem : Item :=
  { id := "i0", name := "User Data", type := "data", rarity := "common",
    value := 10, acquiredFrom := "Meta Empire", acquiredAt := 0,
    activatedAt := none }

/-- The OpenAI corporation worn down to 10 health. -/
def weakenedOpenai : Corporation := { openaiCorp with health := 10 }

/-- A one-member, all-ready party targeting openai with the balanced
formation. -/
def sampleParty : RaidParty :=
  { id := "p1", leader := "u1", members := ["u1"], readyMembers := ["u1"],
    target := "openai", formation := "balanced_formation", state := "ready",
    results := none }

/-- Team state for the coordinated-raid counterexample. -/
def sampleTeamState : TeamState :=
  { rebels := [("u1", sampleRebel)],
    corporations := [("openai", weakenedOpenai)],
    inventory := [("u1", initialInventory)],
    raidParties := [("p1", sampleParty)] }

/-- A three-member party with only two members ready. -/
def twoOfThreeParty : RaidParty :=
  { id := "p2", leader := "u1", members := ["u1", "u2", "u3"],
    readyMembers := ["u1", "u2"], target := "openai",
    formation := "balanced_formation", state := "ready", results := none }

/-- Team state holding the 2-of-3-ready party. -/
def twoOfThreeState : TeamState :=
  { rebels := [("u1", sampleRebel), ("u2", createRebel "u2" "mouse" "Model Trainer" 0),
               ("u3", createRebel "u3" "tank" "Model Trainer" 0)],
    corporations := [("openai", openaiCorp)],
    inventory := [("u1", initialInventory), ("u2", initialInventory),
                  ("u3", initialInventory)],
    raidParties := [("p2", twoOfThreeParty)] }

/-- An inventory with 19 of 20 slots taken. -/
def fullishInventory : Inventory :=
  { items := List.replicate 19 sampleItem, capacity := 20, credits := 0 }

/-- A full one-slot inventory. -/
def fullInventory : Inventory :=
  { items := [sampleItem], capacity := 1, credits := 0 }

/-- An empty three-slot inventory. -/
def roomyInventory : Inventory :=
  { items := [], capacity := 3, credits := 0 }

/-- An ended auction that never drew a bid above the start. -/
def expiredNoBidAuction : Auction :=
  { sellerId := "s", item := sampleItem, startingBid := 100,
    currentBid := 100, currentBidder := none, endTime := 50,
    status := "active", winner := none }

/-- An ended auction won by "w" at 150 credits. -/
def wonAuction : Auction :=
  { sellerId := "s", item := sampleItem, startingBid := 100,
    currentBid := 150, currentBidder := some "w", endTime := 50,
    status := "active", winner := none }

/-- An expired marketplace listing by seller "s". -/
def expiredListing : Listing :=
  { sellerId := "s", item := sampleItem, price := 100, expiresAt := 50 }

/-- World state with one live cooldown, for the snapshot round trip. -/
def sampleWorld : WorldState :=
  { rebels := [("u1", sampleRebel)],
    corporations := [("openai", openaiCorp)],
    inventory := [("u1", initialInventory)],
    activeTrades := [], raidParties := [],
    cooldowns := setCooldown [] "u1" "raid" 60 1000 }

/-- `invs'` extends `invs`: same key domain, same capacities, item counts
only grown — the shape in which a market sweep changes inventories. -/
def invExtends (invs invs' : List (String × Inventory)) : Prop :=
  ∀ u : String,
    (mapGet invs u = none → mapGet invs' u = none) ∧
    ∀ inv, mapGet invs u = some inv →
      ∃ inv', mapGet invs' u = some inv' ∧ inv'.capacity = inv.capacity ∧
        inv.items.length ≤ inv'.items.length

end DobbyX

/-! ## Lemmas and claim theorems -/

namespace DobbyX

theorem mapGet_cons (a : String × α) (m : List (String × α)) (k : String) :
    mapGet (a :: m) k = if a.1 == k then some a.2 else mapGet m k := by
  by_cases h : (a.1 == k) = true
  · unfold mapGet
    rw [@List.find?_cons_of_pos _ (fun p => p.1 == k) a m h, if_pos h]
    rfl
  · unfold mapGet
    rw [@List.find?_cons_of_neg _ (fun p => p.1 == k) a m h, if_neg h]

theorem mapGet_map_set_self (m : List (String × α)) (k : String) (v : α)
    (h : m.any (fun p => p.1 == k) = true) :
    mapGet (m.map (fun p => if p.1 == k then (k, v) else p)) k = some v := by
  induction m with
  | nil => simp at h
  | cons a t ih =>
    simp only [List.map_cons]
    by_cases hak : (a.1 == k) = true
    · rw [if_pos hak, mapGet_cons]
      simp
    · rw [if_neg hak, mapGet_cons, if_neg hak]
      exact ih (by simpa [List.any_cons, hak] using h)

theorem mapGet_map_set_ne (m : List (String × α)) (k u : String) (v : α)
    (hne : u ≠ k) :
    mapGet (m.map (fun p => if p.1 == k then (k, v) else p)) u = mapGet m u := by
  induction m with
  | nil => rfl
  | cons a t ih =>
    simp only [List.map_cons]
    by_cases hak : (a.1 == k) = true
    · have ha : a.1 = k := by simpa using hak
      rw [if_pos hak, mapGet_cons, mapGet_cons]
      rw [if_neg (by simp only [beq_iff_eq]; exact Ne.symm hne),
        if_neg (by simp only [beq_iff_eq, ha]; exact Ne.symm hne)]
      exact ih
    · rw [if_neg hak, mapGet_cons, mapGet_cons]
      by_cases hau : (a.1 == u) = true
      · rw [if_pos hau, if_pos hau]
      · rw [if_neg hau, if_neg hau]
        exact ih

theorem mapGet_append_self (m : List (String × α)) (k : String) (v : α)
    (h : m.any (fun p => p.1 == k) = false) :
    mapGet (m ++ [(k, v)]) k = some v := by
  induction m with
  | nil => simp [mapGet_cons]
  | cons a t ih =>
    simp only [List.any_cons, Bool.or_eq_false_iff] at h
    simp only [List.cons_append, mapGet_cons]
    rw [if_neg (by simp [h.1])]
    exact ih (by simp [h.2])

theorem mapGet_append_ne (m : List (String × α)) (k u : String) (v : α)
    (hne : u ≠ k) :
    mapGet (m ++ [(k, v)]) u = mapGet m u := by
  induction m with
  | nil =>
    simp only [List.nil_append, mapGet_cons]
    rw [if_neg (by simp only [beq_iff_eq]; exact Ne.symm hne)]
  | cons a t ih =>
    simp only [List.cons_append, mapGet_cons]
    by_cases hau : (a.1 == u) = true
    · rw [if_pos hau, if_pos hau]
    · rw [if_neg hau, if_neg hau]
      exact ih

theorem mapGet_mapSet_self (m : List (String × α)) (k : String) (v : α) :
    mapGet (mapSet m k v) k = some v := by
  unfold mapSet
  by_cases hany : m.any (fun p => p.1 == k) = true
  · rw [if_pos hany]
    exact mapGet_map_set_self m k v hany
  · rw [if_neg hany]
    exact mapGet_append_self m k v (Bool.eq_false_iff.mpr hany)

theorem mapGet_mapSet_ne (m : List (String × α)) (k u : String) (v : α)
    (hne : u ≠ k) :
    mapGet (mapSet m k v) u = mapGet m u := by
  unfold mapSet
  by_cases hany : m.any (fun p => p.1 == k) = true
  · rw [if_pos hany]
    exact mapGet_map_set_ne m k u v hne
  · rw [if_neg hany]
    exact mapGet_append_ne m k u v hne

theorem mapGet_mapSet_cases (m : List (String × α)) (k : String) (v w : α)
    (u : String) (h : mapGet (mapSet m k v) u = some w) :
    w = v ∨ mapGet m u = some w := by
  by_cases hu : u = k
  · subst hu
    rw [mapGet_mapSet_self] at h
    exact Or.inl (Option.some.inj h).symm
  · rw [mapGet_mapSet_ne m k u v hu] at h
    exact Or.inr h

theorem mapGet_map (m : List (String × α)) (f : α → β) (u : String) :
    mapGet (m.map (fun p => (p.1, f p.2))) u = (mapGet m u).map f := by
  induction m with
  | nil => rfl
  | cons a t ih =>
    simp only [List.map_cons]
    by_cases hau : (a.1 == u) = true
    · simp [mapGet_cons, hau]
    · simp [mapGet_cons, hau, ih]

end DobbyX

/-- C1 counterexample: starting from the fresh rebel (level 1, experience
0) a gain of 200 experience sets level 3 in the game core, while the
documented formula `min(100, floor(sqrt(experience/100)) + 1)` gives 2 at
experience 200 — the stored level is not the documented function of
experience. -/
theorem c1_counterexample :
    (DobbyX.gainExperience DobbyX.sampleRebel 200).1.level = 3 ∧
    RebelDAL.calculateLevel
      (DobbyX.gainExperience DobbyX.sampleRebel 200).1.experience = 2 ∧
    (DobbyX.gainExperience DobbyX.sampleRebel 200).1.level
      ≠ RebelDAL.calculateLevel
          (DobbyX.gainExperience DobbyX.sampleRebel 200).1.experience := by
  with_unfolding_all decide

/-- C1 (amended): the game core's level law is linear, not the documented
square-root formula: gainExperience recomputes
`newLevel = floor(experience / 100) + 1` and stores it only when it
increased, so any rebel satisfying `level = floor(experience/100) + 1`
still satisfies it after every experience gain, and the level never
decreases. -/
theorem c1_level_formula (r : DobbyX.Rebel) (amount : ℕ)
    (h : r.level = r.experience / 100 + 1) :
    (DobbyX.gainExperience r amount).1.level
      = (DobbyX.gainExperience r amount).1.experience / 100 + 1 ∧
    r.level ≤ (DobbyX.gainExperience r amount).1.level := by
  unfold DobbyX.gainExperience
  dsimp only
  split
  · next hgt => exact ⟨rfl, Nat.le_of_lt hgt⟩
  · next hgt =>
    have hmono : r.experience / 100 ≤ (r.experience + amount) / 100 :=
      Nat.div_le_div_right (Nat.le_add_right _ _)
    dsimp only
    omega

/-- Witness for the amended C1: the fresh rebel satisfies the linear law
and keeps satisfying it after gaining 200 experience. -/
theorem c1_level_formula_witness :
    DobbyX.sampleRebel.level = DobbyX.sampleRebel.experience / 100 + 1 ∧
    ((DobbyX.gainExperience DobbyX.sampleRebel 200).1.level
        = (DobbyX.gainExperience DobbyX.sampleRebel 200).1.experience / 100 + 1 ∧
      DobbyX.sampleRebel.level
        ≤ (DobbyX.gainExperience DobbyX.sampleRebel 200).1.level) :=
  ⟨by decide, c1_level_formula DobbyX.sampleRebel 200 (by decide)⟩

/-- C10: the slash-command raid path and the main game class compute the
same base damage for every rebel (identical multiplier tables, identical
formula), and that common value is
`floor((50 + 10*level + 5*floor(loyalty/100)) * classMultiplier)` with
the multiplier read as an exact rational. -/
theorem c10_damage_implementations_agree (r : DobbyX.Rebel) :
    RaidCommand.calculateDamage r = DobbyX.calculateDamage r ∧
    DobbyX.calculateDamage r
      = ⌊((50 + 10 * r.level + 5 * (r.loyaltyScore / 100) : ℕ) : ℚ)
          * DobbyX.classMultiplierQ r.«class»⌋₊ := by
  constructor
  · rfl
  · unfold DobbyX.calculateDamage DobbyX.classMultiplierQ
    dsimp only
    rw [show ((50 + 10 * r.level + 5 * (r.loyaltyScore / 100) : ℕ) : ℚ)
          * ((DobbyX.classMultiplierNum r.«class» : ℚ) / 10)
        = (((50 + 10 * r.level + 5 * (r.loyaltyScore / 100))
            * DobbyX.classMultiplierNum r.«class» : ℕ) : ℚ) / (10 : ℕ) by
      push_cast; ring]
    rw [Nat.floor_div_nat, Nat.floor_natCast]
    congr 1
    ring

/-- C3: the spec's concrete scenario, with the random draw fixed at
U = 1.0: a level-1, loyalty-0 Model Trainer raiding the full-health
10,000 OpenAI corporation deals floor((50+10+0)*1.0) = 60 damage; the
corporation drops to 9,940 health, the rebel's energy drops from 100 to
75, and the rebel's loyalty becomes 6. -/
theorem c3_raid_scenario :
    DobbyX.calculateDamage DobbyX.sampleRebel = 60 ∧
    (DobbyX.executeRaid "openai" DobbyX.sampleRebel DobbyX.openaiCorp
        (some DobbyX.initialInventory) DobbyX.sampleRaidOracle).actualDamage = 60 ∧
    (DobbyX.executeRaid "openai" DobbyX.sampleRebel DobbyX.openaiCorp
        (some DobbyX.initialInventory) DobbyX.sampleRaidOracle).corporation.health = 9940 ∧
    (DobbyX.executeRaid "openai" DobbyX.sampleRebel DobbyX.openaiCorp
        (some DobbyX.initialInventory) DobbyX.sampleRaidOracle).rebel.energy = 75 ∧
    (DobbyX.executeRaid "openai" DobbyX.sampleRebel DobbyX.openaiCorp
        (some DobbyX.initialInventory) DobbyX.sampleRaidOracle).rebel.loyaltyScore = 6 := by
  with_unfolding_all decide

namespace DobbyX

theorem activateCountermeasure_fst_health (t : String) (c : Corporation)
    (r : Rebel) (inv : Option Inventory) (p : ℕ) (id : String) (now : ℕ) :
    (activateCountermeasure t c r inv p id now).1.health = c.health := rfl

theorem activateCountermeasure_fst_maxHealth (t : String) (c : Corporation)
    (r : Rebel) (inv : Option Inventory) (p : ℕ) (id : String) (now : ℕ) :
    (activateCountermeasure t c r inv p id now).1.maxHealth = c.maxHealth := rfl

theorem checkCountermeasureActivation_fst_health (t : String)
    (c : Corporation) (r : Rebel) (inv : Option Inventory) (d : ℚ)
    (o : CmOracle) :
    (checkCountermeasureActivation t c r inv d o).1.health = c.health := by
  unfold checkCountermeasureActivation
  dsimp only
  split_ifs <;>
    simp only [activateCountermeasure_fst_health]

theorem checkCountermeasureActivation_fst_maxHealth (t : String)
    (c : Corporation) (r : Rebel) (inv : Option Inventory) (d : ℚ)
    (o : CmOracle) :
    (checkCountermeasureActivation t c r inv d o).1.maxHealth = c.maxHealth := by
  unfold checkCountermeasureActivation
  dsimp only
  split_ifs <;>
    simp only [activateCountermeasure_fst_maxHealth]

theorem processCorporateResponse_fst_health (t : String) (c : Corporation)
    (r : Rebel) (inv : Option Inventory) (d : ℚ) (o : CmOracle) :
    (processCorporateResponse t c r inv d o).1.health = c.health := by
  unfold processCorporateResponse
  dsimp only
  rw [checkCountermeasureActivation_fst_health]

theorem processCorporateResponse_fst_maxHealth (t : String) (c : Corporation)
    (r : Rebel) (inv : Option Inventory) (d : ℚ) (o : CmOracle) :
    (processCorporateResponse t c r inv d o).1.maxHealth = c.maxHealth := by
  unfold processCorporateResponse
  dsimp only
  rw [checkCountermeasureActivation_fst_maxHealth]

theorem executeRaid_corporation_health (t : String) (r : Rebel)
    (c : Corporation) (inv : Option Inventory) (o : RaidOracle) :
    (executeRaid t r c inv o).corporation.health
      = (applyRaidDamage c (⌊(calculateDamage r : ℚ) * o.u⌋₊)).health ∧
    (executeRaid t r c inv o).corporation.maxHealth = c.maxHealth := by
  unfold executeRaid applyRaidDamage
  dsimp only
  constructor
  · rw [processCorporateResponse_fst_health]
  · rw [processCorporateResponse_fst_maxHealth]
    split <;> rfl

theorem applyRaidDamage_of_lt (c : Corporation) (d : ℕ)
    (h : (d : ℤ) < c.health) :
    applyRaidDamage c d = { c with health := c.health - d } := by
  unfold applyRaidDamage
  dsimp only
  rw [max_eq_right (by omega : (0:ℤ) ≤ c.health - d)]
  rw [if_neg (by omega : ¬ c.health - (d:ℤ) ≤ 0)]

theorem applyRaidDamage_foldl (ds : List ℕ) :
    ∀ c : Corporation, ((ds.sum : ℤ) < c.health) →
      (List.foldl applyRaidDamage c ds).health = c.health - ds.sum ∧
      (List.foldl applyRaidDamage c ds).maxHealth = c.maxHealth := by
  induction ds with
  | nil => intro c _; simp
  | cons d rest ih =>
    intro c h
    have hsum : ((d :: rest).sum : ℤ) = (d : ℤ) + (rest.sum : ℤ) := by
      push_cast [List.sum_cons]
      ring
    rw [hsum] at h
    have hd : (d : ℤ) < c.health := by omega
    rw [List.foldl_cons, applyRaidDamage_of_lt c d hd]
    have step := ih { c with health := c.health - d } (by dsimp only; omega)
    dsimp only at step
    refine ⟨?_, step.2⟩
    rw [step.1, hsum]
    ring

end DobbyX

/-- C4: inside executeRaid the health read-modify-write is a single
synchronous step (no suspension point between the read at line 1786 and
the write at line 1790, nor before the defeat reset), so under the JS
event loop N concurrent raids apply their `applyRaidDamage` steps in
some sequential order.  For every order whose total damage stays below
the current health, the final health is exactly
`health − Σdᵢ = max(0, health − Σdᵢ)` — no raid's damage is lost, and
any permutation of the same damages produces the same final health.
(A raid that clamps health to 0 triggers the defeat reset, the claim's
stated exception.)  The last clause ties `applyRaidDamage` to the health
mutation actually performed by `executeRaid`. -/
theorem c4_concurrent_raids (c : DobbyX.Corporation) (ds : List ℕ)
    (h : ((ds.sum : ℤ) < c.health)) :
    (List.foldl DobbyX.applyRaidDamage c ds).health = c.health - ds.sum ∧
    (List.foldl DobbyX.applyRaidDamage c ds).health = max 0 (c.health - ds.sum) ∧
    (∀ ds' : List ℕ, ds.Perm ds' →
      (List.foldl DobbyX.applyRaidDamage c ds').health = c.health - ds.sum) ∧
    ∀ (t : String) (r : DobbyX.Rebel) (inv : Option DobbyX.Inventory)
        (o : DobbyX.RaidOracle),
      (DobbyX.executeRaid t r c inv o).corporation.health
        = (DobbyX.applyRaidDamage c
            (⌊(DobbyX.calculateDamage r : ℚ) * o.u⌋₊)).health := by
  have main := DobbyX.applyRaidDamage_foldl ds c h
  refine ⟨main.1, ?_, ?_, ?_⟩
  · rw [main.1]
    exact (max_eq_right (by omega)).symm
  · intro ds' hperm
    have hs : ds.sum = ds'.sum := hperm.sum_eq
    have := (DobbyX.applyRaidDamage_foldl ds' c (by rw [← hs]; exact h)).1
    rw [this, hs]
  · intro t r inv o
    exact (DobbyX.executeRaid_corporation_health t r c inv o).1

/-- Witness for C4: two raids of 60 and 100 damage against the fresh
OpenAI corporation leave exactly 10000 − 160 health. -/
theorem c4_concurrent_raids_witness :
    ((([60, 100] : List ℕ).sum : ℤ) < DobbyX.openaiCorp.health) ∧
    (List.foldl DobbyX.applyRaidDamage DobbyX.openaiCorp [60, 100]).health
      = DobbyX.openaiCorp.health - (([60, 100] : List ℕ).sum : ℤ) :=
  ⟨by decide, (c4_concurrent_raids DobbyX.openaiCorp [60, 100] (by decide)).1⟩

namespace DobbyX

theorem teamResponseLoop_fst_health (t : String) (d : ℚ) (o : TeamOracle) :
    ∀ (ms : List String) (i : ℕ) (c : Corporation)
      (rs : List (String × Rebel)) (is : List (String × Inventory)),
      (teamResponseLoop t d o ms i c rs is).1.health = c.health ∧
      (teamResponseLoop t d o ms i c rs is).1.maxHealth = c.maxHealth := by
  intro ms
  induction ms with
  | nil => intro i c rs is; exact ⟨rfl, rfl⟩
  | cons m rest ih =>
    intro i c rs is
    simp only [teamResponseLoop]
    cases hm : mapGet rs m with
    | none => exact ih (i + 1) c rs is
    | some member =>
      dsimp only
      refine ⟨?_, ?_⟩
      · rw [(ih _ _ _ _).1, processCorporateResponse_fst_health]
      · rw [(ih _ _ _ _).2, processCorporateResponse_fst_maxHealth]

theorem applyRaidDamage_bounds (c : Corporation) (d : ℕ)
    (h0 : 0 ≤ c.health) (h1 : c.health ≤ c.maxHealth) (h2 : 0 < c.maxHealth) :
    0 < (applyRaidDamage c d).health ∧
    (applyRaidDamage c d).health ≤ c.maxHealth ∧
    (c.health ≤ (d : ℤ) → (applyRaidDamage c d).health = c.maxHealth) := by
  unfold applyRaidDamage
  dsimp only
  by_cases hz : max 0 (c.health - (d : ℤ)) ≤ 0
  · rw [if_pos hz]
    exact ⟨h2, le_refl _, fun _ => rfl⟩
  · rw [if_neg hz]
    push_neg at hz
    have hx : max 0 (c.health - (d : ℤ)) ≤ c.health :=
      max_le h0 (by omega)
    refine ⟨hz, le_trans hx h1, fun hle => ?_⟩
    exfalso
    have hmax : max 0 (c.health - (d : ℤ)) = 0 := max_eq_left (by omega)
    omega

theorem executeCoordinatedRaid_corp_bounds (st : TeamState)
    (party : RaidParty) (o : TeamOracle) (st' : TeamState)
    (h : executeCoordinatedRaid st party o = some st')
    (k : String) (c c' : Corporation)
    (hk : mapGet st.corporations k = some c)
    (hk' : mapGet st'.corporations k = some c')
    (h0 : 0 ≤ c.health) (h1 : c.health ≤ c.maxHealth) :
    0 ≤ c'.health ∧ c'.health ≤ c'.maxHealth := by
  unfold executeCoordinatedRaid at h
  cases hc : mapGet st.corporations party.target with
  | none => rw [hc] at h; exact absurd h (by simp)
  | some c₀ =>
    cases hf : mapGet formations party.formation with
    | none => rw [hc, hf] at h; exact absurd h (by simp)
    | some formation =>
      rw [hc, hf] at h
      dsimp only at h
      injection h with h
      subst h
      dsimp only at hk'
      by_cases hkt : k = party.target
      · subst hkt
        rw [hk] at hc
        injection hc with hc
        subst hc
        rw [mapGet_mapSet_self] at hk'
        injection hk' with hk'
        subst hk'
        split
        · rw [(teamResponseLoop_fst_health _ _ _ _ _ _ _ _).1,
            (teamResponseLoop_fst_health _ _ _ _ _ _ _ _).2]
          dsimp only
          constructor
          · exact le_max_left 0 _
          · exact max_le (by omega) (by omega)
        · dsimp only
          constructor
          · exact le_max_left 0 _
          · exact max_le (by omega) (by omega)
      · rw [mapGet_mapSet_ne _ _ _ _ hkt, hk] at hk'
        injection hk' with hk'
        subst hk'
        exact ⟨h0, h1⟩

end DobbyX

/-- C2 counterexample: a coordinated team raid whose combined damage
exceeds the target's current health leaves the corporation at exactly 0
health — executeCoordinatedRaid clamps at 0 but performs no defeat
reset, so the corporation IS left at 0 within that mutation, against the
claimed invariant that health 0 is always reset to maxHealth. -/
theorem c2_counterexample :
    ((DobbyX.executeCoordinatedRaid DobbyX.sampleTeamState DobbyX.sampleParty
        DobbyX.sampleTeamOracle).map (fun st =>
          (DobbyX.mapGet st.corporations "openai").map (fun c => c.health)))
      = some (some 0) ∧
    DobbyX.weakenedOpenai.maxHealth = 10000 := by
  with_unfolding_all decide

/-- C2 (amended): health bounds hold after both raid kinds, but the
0→maxHealth reset exists only on the solo path: after executeRaid
0 < health ≤ maxHealth, and a hit that clamps health to 0 resets it to
maxHealth within the same mutation; after executeCoordinatedRaid only
0 ≤ health ≤ maxHealth holds — the combined hit clamps at 0 with no
reset, so a defeated target can be left at 0. -/
theorem c2_health_bounds :
    (∀ (t : String) (r : DobbyX.Rebel) (c : DobbyX.Corporation)
        (inv : Option DobbyX.Inventory) (o : DobbyX.RaidOracle),
      0 ≤ c.health → c.health ≤ c.maxHealth → 0 < c.maxHealth →
        0 < (DobbyX.executeRaid t r c inv o).corporation.health ∧
        (DobbyX.executeRaid t r c inv o).corporation.health ≤ c.maxHealth ∧
        (c.health ≤ (⌊(DobbyX.calculateDamage r : ℚ) * o.u⌋₊ : ℤ) →
          (DobbyX.executeRaid t r c inv o).corporation.health = c.maxHealth)) ∧
    (∀ (st : DobbyX.TeamState) (party : DobbyX.RaidParty)
        (o : DobbyX.TeamOracle) (st' : DobbyX.TeamState),
      DobbyX.executeCoordinatedRaid st party o = some st' →
      ∀ (k : String) (c c' : DobbyX.Corporation),
        DobbyX.mapGet st.corporations k = some c →
        DobbyX.mapGet st'.corporations k = some c' →
        0 ≤ c.health → c.health ≤ c.maxHealth →
        0 ≤ c'.health ∧ c'.health ≤ c'.maxHealth) := by
  constructor
  · intro t r c inv o h0 h1 h2
    have hh := (DobbyX.executeRaid_corporation_health t r c inv o).1
    have hb := DobbyX.applyRaidDamage_bounds c
      (⌊(DobbyX.calculateDamage r : ℚ) * o.u⌋₊) h0 h1 h2
    rw [hh]
    exact hb
  · intro st party o st' h k c c' hk hk' h0 h1
    exact DobbyX.executeCoordinatedRaid_corp_bounds st party o st' h k c c'
      hk hk' h0 h1

/-- Witness for the amended C2: the solo-raid clause at the concrete
scenario of C3 (OpenAI at full health, fresh Model Trainer, U = 1). -/
theorem c2_health_bounds_witness :
    (0 ≤ DobbyX.openaiCorp.health ∧
     DobbyX.openaiCorp.health ≤ DobbyX.openaiCorp.maxHealth ∧
     0 < DobbyX.openaiCorp.maxHealth) ∧
    (0 < (DobbyX.executeRaid "openai" DobbyX.sampleRebel DobbyX.openaiCorp
        (some DobbyX.initialInventory) DobbyX.sampleRaidOracle).corporation.health ∧
     (DobbyX.executeRaid "openai" DobbyX.sampleRebel DobbyX.openaiCorp
        (some DobbyX.initialInventory) DobbyX.sampleRaidOracle).corporation.health
        ≤ DobbyX.openaiCorp.maxHealth ∧
     (DobbyX.openaiCorp.health
        ≤ (⌊(DobbyX.calculateDamage DobbyX.sampleRebel : ℚ)
            * DobbyX.sampleRaidOracle.u⌋₊ : ℤ) →
      (DobbyX.executeRaid "openai" DobbyX.sampleRebel DobbyX.openaiCorp
        (some DobbyX.initialInventory) DobbyX.sampleRaidOracle).corporation.health
        = DobbyX.openaiCorp.maxHealth)) :=
  ⟨⟨by decide, by decide, by decide⟩,
   c2_health_bounds.1 "openai" DobbyX.sampleRebel DobbyX.openaiCorp
     (some DobbyX.initialInventory) DobbyX.sampleRaidOracle
     (by decide) (by decide) (by decide)⟩

namespace DobbyX

theorem addLootItems_capacity (corp : Corporation) (damage : ℕ)
    (o : LootOracle) (now : ℕ) :
    ∀ (n : ℕ) (inv : Inventory) (i : ℕ),
      (addLootItems corp damage o now inv i n).capacity = inv.capacity ∧
      (inv.items.length ≤ inv.capacity →
        (addLootItems corp damage o now inv i n).items.length ≤ inv.capacity) := by
  intro n
  induction n with
  | zero => intro inv i; exact ⟨rfl, fun h => h⟩
  | succ n ih =>
    intro inv i
    simp only [addLootItems]
    by_cases hfull : inv.items.length ≥ inv.capacity
    · rw [if_pos hfull]
      exact ⟨rfl, fun h => h⟩
    · rw [if_neg hfull]
      have step := ih
        { inv with items := inv.items ++ [makeLootItem corp damage o now i] }
        (i + 1)
      dsimp only at step
      refine ⟨step.1, fun _ => ?_⟩
      exact step.2 (by simp only [List.length_append, List.length_cons,
        List.length_nil]; omega)

theorem pushTeamItems_capacity (memberCount idx : ℕ) :
    ∀ (items : List Item) (inv : Inventory) (j : ℕ),
      (pushTeamItems memberCount idx inv items j).capacity = inv.capacity ∧
      (inv.items.length ≤ inv.capacity →
        (pushTeamItems memberCount idx inv items j).items.length ≤ inv.capacity) := by
  intro items
  induction items with
  | nil => intro inv j; exact ⟨rfl, fun h => h⟩
  | cons item rest ih =>
    intro inv j
    simp only [pushTeamItems]
    by_cases hmod : (j % memberCount == idx) = true
    · rw [if_pos hmod]
      by_cases hlen : inv.items.length < inv.capacity
      · rw [if_pos hlen]
        have step := ih { inv with items := inv.items ++ [item] } (j + 1)
        dsimp only at step
        refine ⟨step.1, fun _ => ?_⟩
        exact step.2 (by simp only [List.length_append, List.length_cons,
          List.length_nil]; omega)
      · rw [if_neg hlen]
        exact ih inv (j + 1)
    · rw [if_neg hmod]
      exact ih inv (j + 1)

theorem distributeLoop_capacity :
    ∀ (members : List String) (index cpm : ℕ) (items : List Item) (mc : ℕ)
      (invs : List (String × Inventory)),
      (∀ u inv, mapGet invs u = some inv → inv.items.length ≤ inv.capacity) →
      ∀ u inv,
        mapGet (distributeLoop members index cpm items mc invs) u = some inv →
        inv.items.length ≤ inv.capacity := by
  intro members
  induction members with
  | nil => intro index cpm items mc invs hinv u inv h; exact hinv u inv h
  | cons m rest ih =>
    intro index cpm items mc invs hinv u inv h
    simp only [distributeLoop] at h
    cases hm : mapGet invs m with
    | none =>
      rw [hm] at h
      exact ih _ _ _ _ _ hinv u inv h
    | some inv0 =>
      rw [hm] at h
      dsimp only at h
      refine ih _ _ _ _ _ ?_ u inv h
      intro u' inv' h'
      rcases mapGet_mapSet_cases _ _ _ _ _ h' with heq | hold
      · subst heq
        have base : inv0.items.length ≤ inv0.capacity := hinv m inv0 hm
        have step := pushTeamItems_capacity mc index items
          { inv0 with credits := inv0.credits + cpm } 0
        dsimp only at step
        rw [step.1]
        exact step.2 base
      · exact hinv u' inv' hold

end DobbyX

/-- C5 counterexample: with 19 of 20 slots used, a loot award of damage
100 wants min(3, floor(100/100)+1) = 2 items, but adds exactly one (the
loop truncates at capacity) and still awards the credits — the operation
is neither rejected as a whole nor applied in full: it is silently
truncated to the remaining space. -/
theorem c5_counterexample :
    (DobbyX.addLootToInventory DobbyX.fullishInventory DobbyX.openaiCorp 100
        DobbyX.sampleLootOracle 0).items.length = 20 ∧
    min 3 (100 / 100 + 1) = 2 ∧
    (DobbyX.addLootToInventory DobbyX.fullishInventory DobbyX.openaiCorp 100
        DobbyX.sampleLootOracle 0).items.length
      ≠ DobbyX.fullishInventory.items.length + 2 ∧
    DobbyX.addLootToInventory DobbyX.fullishInventory DobbyX.openaiCorp 100
        DobbyX.sampleLootOracle 0 ≠ DobbyX.fullishInventory := by
  decide

/-- C5 (amended): the bound `item count ≤ capacity` does hold across all
three item-adding operations, and the shop purchase alone is
all-or-nothing (it errors without touching the inventory when full, and
on success adds exactly one item within capacity); the loot award and
team-loot distribution do NOT reject oversized awards — they silently
truncate at capacity (counterexample above). -/
theorem c5_capacity_invariant :
    (∀ (inv : DobbyX.Inventory) (corp : DobbyX.Corporation) (damage : ℕ)
        (o : DobbyX.LootOracle) (now : ℕ),
      inv.items.length ≤ inv.capacity →
        (DobbyX.addLootToInventory inv corp damage o now).items.length
          ≤ (DobbyX.addLootToInventory inv corp damage o now).capacity) ∧
    (∀ (members : List String) (loot : DobbyX.TeamLoot)
        (invs : List (String × DobbyX.Inventory)),
      (∀ u inv, DobbyX.mapGet invs u = some inv →
        inv.items.length ≤ inv.capacity) →
      ∀ u inv,
        DobbyX.mapGet (DobbyX.distributeTeamLoot members loot invs) u = some inv →
        inv.items.length ≤ inv.capacity) ∧
    (∀ (inv : DobbyX.Inventory) (itemType itemId : String) (now : ℕ)
        (inv' : DobbyX.Inventory),
      DobbyX.handleBuyDefensiveItem (some inv) itemType itemId now
          = Except.ok inv' →
        inv.items.length < inv.capacity ∧
        inv'.items.length = inv.items.length + 1 ∧
        inv'.items.length ≤ inv'.capacity) ∧
    (∀ (inv : DobbyX.Inventory) (itemType itemId : String) (now : ℕ),
      inv.items.length ≥ inv.capacity →
        ∀ inv', DobbyX.handleBuyDefensiveItem (some inv) itemType itemId now
          ≠ Except.ok inv') := by
  refine ⟨?_, ?_, ?_, ?_⟩
  · intro inv corp damage o now h
    unfold DobbyX.addLootToInventory
    dsimp only
    have step := DobbyX.addLootItems_capacity corp damage o now
      (min 3 (damage / 100 + 1)) inv 0
    rw [step.1]
    exact step.2 h
  · intro members loot invs hinv u inv h
    unfold DobbyX.distributeTeamLoot at h
    dsimp only at h
    exact DobbyX.distributeLoop_capacity members 0
      (loot.credits / members.length) loot.items members.length invs hinv u inv h
  · intro inv itemType itemId now inv' h
    unfold DobbyX.handleBuyDefensiveItem at h
    cases hd : DobbyX.mapGet DobbyX.defensiveItems itemType with
    | none => rw [hd] at h; exact (Except.noConfusion h)
    | some ditem =>
      rw [hd] at h
      dsimp only at h
      split_ifs at h with h1 h2
      injection h with h
      subst h
      refine ⟨by omega, ?_, ?_⟩
      · simp [List.length_append]
      · simp only [List.length_append, List.length_cons, List.length_nil]
        omega
  · intro inv itemType itemId now hfull inv' h
    unfold DobbyX.handleBuyDefensiveItem at h
    cases hd : DobbyX.mapGet DobbyX.defensiveItems itemType with
    | none => rw [hd] at h; exact (Except.noConfusion h)
    | some ditem =>
      rw [hd] at h
      dsimp only at h
      split_ifs at h with h1

/-- Witness for the amended C5: the capacity bound after awarding loot to
the 19-of-20 inventory. -/
theorem c5_capacity_invariant_witness :
    DobbyX.fullishInventory.items.length ≤ DobbyX.fullishInventory.capacity ∧
    (DobbyX.addLootToInventory DobbyX.fullishInventory DobbyX.openaiCorp 100
        DobbyX.sampleLootOracle 0).items.length
      ≤ (DobbyX.addLootToInventory DobbyX.fullishInventory DobbyX.openaiCorp 100
        DobbyX.sampleLootOracle 0).capacity :=
  ⟨by decide, c5_capacity_invariant.1 DobbyX.fullishInventory DobbyX.openaiCorp
      100 DobbyX.sampleLootOracle 0 (by decide)⟩

/-- C7: executing a raid party that is not fully ready fails without any
state change: handleExecuteTeamRaid returns the not-all-ready error (the
invalid-state outcome) and the returned state is the input state — zero
damage, zero loot, zero energy deducted; a non-leader caller is likewise
rejected with no state change, and execution can only ever be reached by
the party leader with every member ready. -/
theorem c7_team_raid_all_or_nothing (st : DobbyX.TeamState)
    (partyId userId : String) (o : DobbyX.TeamOracle)
    (party : DobbyX.RaidParty)
    (hp : DobbyX.mapGet st.raidParties partyId = some party) :
    (party.readyMembers.length < party.members.length →
      (DobbyX.handleExecuteTeamRaid st partyId userId o).2 = st ∧
      (DobbyX.handleExecuteTeamRaid st partyId userId o).1
        ≠ DobbyX.TeamRaidRes.executed ∧
      (userId = party.leader →
        (DobbyX.handleExecuteTeamRaid st partyId userId o).1
          = DobbyX.TeamRaidRes.notAllReady)) ∧
    ((DobbyX.handleExecuteTeamRaid st partyId userId o).1
        = DobbyX.TeamRaidRes.executed →
      userId = party.leader ∧
      party.members.length ≤ party.readyMembers.length) := by
  unfold DobbyX.handleExecuteTeamRaid
  rw [hp]
  dsimp only
  by_cases hl : (party.leader != userId) = true
  · rw [if_pos hl]
    have hne : party.leader ≠ userId := by simpa using hl
    exact ⟨fun _ => ⟨rfl, by simp, fun heq => absurd heq.symm hne⟩,
      fun hex => absurd hex (by simp)⟩
  · rw [if_neg hl]
    have heq : party.leader = userId := by simpa using hl
    by_cases hr : party.readyMembers.length < party.members.length
    · rw [if_pos hr]
      exact ⟨fun _ => ⟨rfl, by simp, fun _ => rfl⟩,
        fun hex => absurd hex (by simp)⟩
    · rw [if_neg hr]
      exact ⟨fun hcon => absurd hcon hr, fun _ => ⟨heq.symm, by omega⟩⟩

/-- Witness for C7: the 2-of-3-ready party, invoked by its leader, is
rejected with the not-all-ready result and the state is unchanged. -/
theorem c7_team_raid_all_or_nothing_witness :
    DobbyX.mapGet DobbyX.twoOfThreeState.raidParties "p2"
      = some DobbyX.twoOfThreeParty ∧
    ((DobbyX.twoOfThreeParty.readyMembers.length
        < DobbyX.twoOfThreeParty.members.length →
      (DobbyX.handleExecuteTeamRaid DobbyX.twoOfThreeState "p2" "u1"
          DobbyX.sampleTeamOracle).2 = DobbyX.twoOfThreeState ∧
      (DobbyX.handleExecuteTeamRaid DobbyX.twoOfThreeState "p2" "u1"
          DobbyX.sampleTeamOracle).1 ≠ DobbyX.TeamRaidRes.executed ∧
      ("u1" = DobbyX.twoOfThreeParty.leader →
        (DobbyX.handleExecuteTeamRaid DobbyX.twoOfThreeState "p2" "u1"
            DobbyX.sampleTeamOracle).1 = DobbyX.TeamRaidRes.notAllReady)) ∧
    ((DobbyX.handleExecuteTeamRaid DobbyX.twoOfThreeState "p2" "u1"
          DobbyX.sampleTeamOracle).1 = DobbyX.TeamRaidRes.executed →
      "u1" = DobbyX.twoOfThreeParty.leader ∧
      DobbyX.twoOfThreeParty.members.length
        ≤ DobbyX.twoOfThreeParty.readyMembers.length)) :=
  ⟨by decide,
   c7_team_raid_all_or_nothing DobbyX.twoOfThreeState "p2" "u1"
     DobbyX.sampleTeamOracle DobbyX.twoOfThreeParty (by decide)⟩

namespace DobbyX

theorem cleanupExpiredListings_spec (now : ℕ) :
    ∀ (mkt : List (String × Listing)) (invs : List (String × Inventory)),
      (cleanupExpiredListings now mkt invs).1
        = mkt.filter (fun p => decide (now < p.2.expiresAt)) ∧
      (cleanupExpiredListings now mkt invs).2
        = (mkt.filter (fun p => decide (p.2.expiresAt ≤ now))).foldl
            (fun acc p => returnListingItem acc p.2) invs := by
  intro mkt
  induction mkt with
  | nil => intro invs; exact ⟨rfl, rfl⟩
  | cons e rest ih =>
    intro invs
    obtain ⟨lid, listing⟩ := e
    simp only [cleanupExpiredListings]
    by_cases hexp : listing.expiresAt ≤ now
    · rw [if_pos hexp]
      have h1 : (decide (now < listing.expiresAt)) = false := by
        simp
        omega
      have h2 : (decide (listing.expiresAt ≤ now)) = true := by
        simpa using hexp
      constructor
      · rw [(ih _).1]
        simp [List.filter_cons, h1]
      · rw [(ih _).2]
        simp [List.filter_cons, h2]
    · rw [if_neg hexp]
      have h1 : (decide (now < listing.expiresAt)) = true := by
        simp
        omega
      have h2 : (decide (listing.expiresAt ≤ now)) = false := by
        simpa using hexp
      dsimp only
      constructor
      · rw [(ih _).1]
        simp [List.filter_cons, h1]
      · rw [(ih _).2]
        simp [List.filter_cons, h2]

end DobbyX

/-- C9 counterexample: an expired listing whose seller's inventory is
full is deleted from the marketplace anyway, with no inventory change —
the listing does NOT linger until capacity frees, and the escrowed item
is destroyed. -/
theorem c9_counterexample :
    DobbyX.cleanupExpiredListings 100 [("l1", DobbyX.expiredListing)]
        [("s", DobbyX.fullInventory)]
      = ([], [("s", DobbyX.fullInventory)]) ∧
    DobbyX.expiredListing.sellerId = "s" ∧
    DobbyX.fullInventory.items.length = DobbyX.fullInventory.capacity := by
  decide

/-- C9 (amended): the expiry sweep removes EVERY expired listing
unconditionally (nothing lingers); per expired listing the only inventory
effect is `returnListingItem`, which appends the escrowed item to the
seller only when the seller's inventory exists and has free capacity and
otherwise does nothing — so with a full seller inventory the item is
destroyed, not retained. -/
theorem c9_expiry_sweep (now : ℕ) (mkt : List (String × DobbyX.Listing))
    (invs : List (String × DobbyX.Inventory)) :
    ((DobbyX.cleanupExpiredListings now mkt invs).1
        = mkt.filter (fun p => decide (now < p.2.expiresAt)) ∧
     (DobbyX.cleanupExpiredListings now mkt invs).2
        = (mkt.filter (fun p => decide (p.2.expiresAt ≤ now))).foldl
            (fun acc p => DobbyX.returnListingItem acc p.2) invs) ∧
    (∀ (invs' : List (String × DobbyX.Inventory)) (l : DobbyX.Listing)
        (sinv : DobbyX.Inventory),
      DobbyX.mapGet invs' l.sellerId = some sinv →
        (sinv.items.length < sinv.capacity →
          DobbyX.returnListingItem invs' l
            = DobbyX.mapSet invs' l.sellerId
                { sinv with items := sinv.items ++ [l.item] }) ∧
        (¬ sinv.items.length < sinv.capacity →
          DobbyX.returnListingItem invs' l = invs')) ∧
    ∀ (invs' : List (String × DobbyX.Inventory)) (l : DobbyX.Listing),
      DobbyX.mapGet invs' l.sellerId = none →
        DobbyX.returnListingItem invs' l = invs' := by
  refine ⟨DobbyX.cleanupExpiredListings_spec now mkt invs, ?_, ?_⟩
  · intro invs' l sinv h
    unfold DobbyX.returnListingItem
    rw [h]
    dsimp only
    constructor
    · intro hcap
      rw [if_pos hcap]
    · intro hcap
      rw [if_neg hcap]
  · intro invs' l h
    unfold DobbyX.returnListingItem
    rw [h]

/-- Witness for the amended C9: the sweep on a one-listing marketplace
with a seller that has room — the listing is removed and the item comes
back to the seller. -/
theorem c9_expiry_sweep_witness :
    DobbyX.mapGet [("s", DobbyX.roomyInventory)] DobbyX.expiredListing.sellerId
      = some DobbyX.roomyInventory ∧
    ((DobbyX.cleanupExpiredListings 100 [("l1", DobbyX.expiredListing)]
        [("s", DobbyX.roomyInventory)]).1
      = [("l1", DobbyX.expiredListing)].filter
          (fun p => decide ((100:ℕ) < p.2.expiresAt)) ∧
     (DobbyX.cleanupExpiredListings 100 [("l1", DobbyX.expiredListing)]
        [("s", DobbyX.roomyInventory)]).2
      = ([("l1", DobbyX.expiredListing)].filter
          (fun p => decide (p.2.expiresAt ≤ (100:ℕ)))).foldl
            (fun acc p => DobbyX.returnListingItem acc p.2)
            [("s", DobbyX.roomyInventory)]) ∧
    (DobbyX.roomyInventory.items.length < DobbyX.roomyInventory.capacity ∧
     DobbyX.returnListingItem [("s", DobbyX.roomyInventory)] DobbyX.expiredListing
       = DobbyX.mapSet [("s", DobbyX.roomyInventory)]
           DobbyX.expiredListing.sellerId
           { DobbyX.roomyInventory with
               items := DobbyX.roomyInventory.items ++ [DobbyX.expiredListing.item] }) :=
  ⟨by decide,
   (c9_expiry_sweep 100 [("l1", DobbyX.expiredListing)]
      [("s", DobbyX.roomyInventory)]).1,
   by decide,
   ((c9_expiry_sweep 100 [("l1", DobbyX.expiredListing)]
      [("s", DobbyX.roomyInventory)]).2.1 [("s", DobbyX.roomyInventory)]
      DobbyX.expiredListing DobbyX.roomyInventory (by decide)).1 (by decide)⟩

/-- C6 counterexample: a live cooldown recorded via setCooldown is
observable before the snapshot round trip and gone after it —
`new Map(Object.entries(JSON.parse(JSON.stringify(Object.fromEntries(cooldowns)))))`
turns every per-user cooldown Map into an empty object — so
loadBackup(createBackup(s)) is NOT an observably identical world state. -/
theorem c6_counterexample :
    DobbyX.isOnCooldown DobbyX.sampleWorld.cooldowns "u1" "raid" 2000 = true ∧
    DobbyX.isOnCooldown (DobbyX.backupRestore DobbyX.sampleWorld).cooldowns
        "u1" "raid" 2000 = false ∧
    DobbyX.backupRestore DobbyX.sampleWorld ≠ DobbyX.sampleWorld := by
  decide

/-- C6 (amended): the snapshot round trip reproduces the rebels,
inventories and trades exactly, but empties every JS `Set`/nested-`Map`
substructure: each corporation comes back with empty knownRebels and
threatAssessment, each raid party with an empty ready set, and each
user's cooldown table comes back empty. -/
theorem c6_backup_roundtrip (s : DobbyX.WorldState) :
    (DobbyX.backupRestore s).rebels = s.rebels ∧
    (DobbyX.backupRestore s).inventory = s.inventory ∧
    (DobbyX.backupRestore s).activeTrades = s.activeTrades ∧
    (∀ u tbl, DobbyX.mapGet s.cooldowns u = some tbl →
      DobbyX.mapGet (DobbyX.backupRestore s).cooldowns u = some []) ∧
    (∀ k c, DobbyX.mapGet s.corporations k = some c →
      DobbyX.mapGet (DobbyX.backupRestore s).corporations k
        = some { c with intelligence :=
            { knownRebels := [], threatAssessment := [],
              lastScan := c.intelligence.lastScan } }) ∧
    (∀ p party, DobbyX.mapGet s.raidParties p = some party →
      DobbyX.mapGet (DobbyX.backupRestore s).raidParties p
        = some { party with readyMembers := [] }) := by
  refine ⟨rfl, rfl, rfl, ?_, ?_, ?_⟩
  · intro u tbl h
    have hm := DobbyX.mapGet_map s.cooldowns
      (fun _ => ([] : List (String × ℕ))) u
    exact hm.trans (by rw [h]; rfl)
  · intro k c h
    have hm := DobbyX.mapGet_map s.corporations
      (fun c => { c with intelligence :=
        { knownRebels := [], threatAssessment := [],
          lastScan := c.intelligence.lastScan } }) k
    exact hm.trans (by rw [h]; rfl)
  · intro p party h
    have hm := DobbyX.mapGet_map s.raidParties
      (fun party => { party with readyMembers := ([] : List String) }) p
    exact hm.trans (by rw [h]; rfl)

/-- Witness for the amended C6: in the sample world the cooldown table of
user u1 exists before the round trip and is empty after it. -/
theorem c6_backup_roundtrip_witness :
    DobbyX.mapGet DobbyX.sampleWorld.cooldowns "u1" = some [("raid", 61000)] ∧
    DobbyX.mapGet (DobbyX.backupRestore DobbyX.sampleWorld).cooldowns "u1"
      = some [] :=
  ⟨by decide,
   (c6_backup_roundtrip DobbyX.sampleWorld).2.2.2.1 "u1" [("raid", 61000)]
     (by decide)⟩


namespace DobbyX

theorem invExtends_refl (invs : List (String × Inventory)) :
    invExtends invs invs :=
  fun _ => ⟨fun h => h, fun inv h => ⟨inv, h, rfl, le_refl _⟩⟩

theorem invExtends_trans {a b c : List (String × Inventory)}
    (h1 : invExtends a b) (h2 : invExtends b c) : invExtends a c := by
  intro u
  refine ⟨fun h => (h2 u).1 ((h1 u).1 h), fun inv h => ?_⟩
  obtain ⟨i1, hb, hc1, hl1⟩ := (h1 u).2 inv h
  obtain ⟨i2, hcc, hc2, hl2⟩ := (h2 u).2 i1 hb
  exact ⟨i2, hcc, by rw [hc2, hc1], le_trans hl1 hl2⟩

theorem invExtends_mapSet (invs : List (String × Inventory)) (u : String)
    (inv v : Inventory) (h : mapGet invs u = some inv)
    (hcap : v.capacity = inv.capacity)
    (hlen : inv.items.length ≤ v.items.length) :
    invExtends invs (mapSet invs u v) := by
  intro u'
  by_cases hu : u' = u
  · subst hu
    refine ⟨fun hn => absurd h (by rw [hn]; simp), fun inv₀ h₀ => ?_⟩
    rw [h] at h₀
    injection h₀ with h₀
    subst h₀
    exact ⟨v, mapGet_mapSet_self _ _ _, hcap, hlen⟩
  · refine ⟨fun hn => ?_, fun inv₀ h₀ => ?_⟩
    · rw [mapGet_mapSet_ne invs u u' v hu]
      exact hn
    · exact ⟨inv₀, by rw [mapGet_mapSet_ne invs u u' v hu]; exact h₀, rfl,
        le_refl _⟩

theorem processAuction_not_active (now : ℕ) (a : Auction)
    (invs : List (String × Inventory))
    (h : ¬(a.status = "active" ∧ a.endTime ≤ now)) :
    processAuction now a invs = (a, invs) := by
  unfold processAuction
  rw [if_neg h]

theorem processAuction_extends (now : ℕ) (a : Auction)
    (invs : List (String × Inventory)) :
    invExtends invs (processAuction now a invs).2 := by
  by_cases hact : a.status = "active" ∧ a.endTime ≤ now
  · unfold processAuction
    rw [if_pos hact]
    dsimp only
    cases hb : a.currentBidder with
    | none =>
      dsimp only
      cases hs : mapGet invs a.sellerId with
      | none => exact invExtends_refl _
      | some sinv =>
        dsimp only
        by_cases hcap : sinv.items.length < sinv.capacity
        · rw [if_pos hcap]
          exact invExtends_mapSet invs a.sellerId sinv _ hs rfl (by simp)
        · rw [if_neg hcap]
          exact invExtends_refl _
    | some w =>
      dsimp only
      by_cases hbid : a.currentBid > a.startingBid
      · rw [if_pos hbid]
        cases hw : mapGet invs w with
        | none => exact invExtends_refl _
        | some winv =>
          dsimp only
          by_cases hcap : winv.items.length < winv.capacity
          · rw [if_pos hcap]
            dsimp only
            have e1 := invExtends_mapSet invs w winv
              { winv with items := winv.items ++ [a.item] } hw rfl (by simp)
            cases hs : mapGet
                (mapSet invs w { winv with items := winv.items ++ [a.item] })
                a.sellerId with
            | none => exact e1
            | some sinv =>
              dsimp only
              exact invExtends_trans e1
                (invExtends_mapSet _ a.sellerId sinv _ hs rfl (le_refl _))
          · rw [if_neg hcap]
            exact invExtends_refl _
      · rw [if_neg hbid]
        cases hs : mapGet invs a.sellerId with
        | none => exact invExtends_refl _
        | some sinv =>
          dsimp only
          by_cases hcap : sinv.items.length < sinv.capacity
          · rw [if_pos hcap]
            exact invExtends_mapSet invs a.sellerId sinv _ hs rfl (by simp)
          · rw [if_neg hcap]
            exact invExtends_refl _
  · rw [processAuction_not_active now a invs hact]
    exact invExtends_refl _

theorem processAuctionTimers_extends (now : ℕ) :
    ∀ (auctions : List (String × Auction)) (invs : List (String × Inventory)),
      invExtends invs (processAuctionTimers now auctions invs).2 := by
  intro auctions
  induction auctions with
  | nil => intro invs; exact invExtends_refl _
  | cons e rest ih =>
    intro invs
    obtain ⟨k, a⟩ := e
    simp only [processAuctionTimers]
    exact invExtends_trans (processAuction_extends now a invs) (ih _)

theorem processAuction_expired_fst (now : ℕ) (a : Auction)
    (invs : List (String × Inventory))
    (h : a.status = "active" ∧ a.endTime ≤ now)
    (hnb : a.currentBidder = none ∨ a.currentBid ≤ a.startingBid) :
    (processAuction now a invs).1 = { a with status := "expired" } := by
  unfold processAuction
  rw [if_pos h]
  dsimp only
  cases hb : a.currentBidder with
  | none =>
    dsimp only
    cases hs : mapGet invs a.sellerId with
    | none => rfl
    | some sinv =>
      dsimp only
      split <;> rfl
  | some w =>
    dsimp only
    have hle : a.currentBid ≤ a.startingBid := by
      rcases hnb with hnb | hnb
      · rw [hb] at hnb
        exact absurd hnb (by simp)
      · exact hnb
    rw [if_neg (by omega)]
    cases hs : mapGet invs a.sellerId with
    | none => rfl
    | some sinv =>
      dsimp only
      split <;> rfl

theorem processAuction_winner (now : ℕ) (a : Auction)
    (invs : List (String × Inventory)) (w : String)
    (h : a.status = "active" ∧ a.endTime ≤ now)
    (hb : a.currentBidder = some w)
    (hbid : a.startingBid < a.currentBid) :
    (mapGet invs w = none → processAuction now a invs = (a, invs)) ∧
    (∀ winv, mapGet invs w = some winv →
      winv.capacity ≤ winv.items.length →
      processAuction now a invs = (a, invs)) ∧
    (∀ winv, mapGet invs w = some winv →
      winv.items.length < winv.capacity →
      (processAuction now a invs).1
        = { a with status := "completed", winner := some w }) := by
  unfold processAuction
  rw [if_pos h, hb]
  dsimp only
  rw [if_pos (by omega : a.currentBid > a.startingBid)]
  refine ⟨fun hw => ?_, fun winv hw hcap => ?_, fun winv hw hcap => ?_⟩
  · rw [hw]
  · rw [hw]
    dsimp only
    rw [if_neg (by omega)]
  · rw [hw]
    dsimp only
    rw [if_pos hcap]

theorem processAuction_idem (now : ℕ) (a : Auction)
    (invs₀ invs₂ : List (String × Inventory))
    (hext : invExtends invs₀ invs₂) :
    processAuction now (processAuction now a invs₀).1 invs₂
      = ((processAuction now a invs₀).1, invs₂) := by
  by_cases hact : a.status = "active" ∧ a.endTime ≤ now
  · cases hb : a.currentBidder with
    | none =>
      rw [processAuction_expired_fst now a invs₀ hact (Or.inl hb)]
      exact processAuction_not_active _ _ _ (by simp)
    | some w =>
      by_cases hbid : a.startingBid < a.currentBid
      · have hw := processAuction_winner now a invs₀ w hact hb hbid
        cases hwg : mapGet invs₀ w with
        | none =>
          rw [hw.1 hwg]
          dsimp only
          exact (processAuction_winner now a invs₂ w hact hb hbid).1
            ((hext w).1 hwg)
        | some winv =>
          by_cases hcap : winv.items.length < winv.capacity
          · rw [hw.2.2 winv hwg hcap]
            exact processAuction_not_active _ _ _ (by simp)
          · rw [hw.2.1 winv hwg (by omega)]
            dsimp only
            obtain ⟨winv', hw', hcap', hlen'⟩ := (hext w).2 winv hwg
            exact (processAuction_winner now a invs₂ w hact hb hbid).2.1
              winv' hw' (by omega)
      · rw [processAuction_expired_fst now a invs₀ hact (Or.inr (by omega))]
        exact processAuction_not_active _ _ _ (by simp)
  · rw [processAuction_not_active now a invs₀ hact]
    dsimp only
    exact processAuction_not_active now a invs₂ hact

theorem processAuctionTimers_idem (now : ℕ) :
    ∀ (auctions : List (String × Auction)) (invs : List (String × Inventory)),
      processAuctionTimers now (processAuctionTimers now auctions invs).1
          (processAuctionTimers now auctions invs).2
        = processAuctionTimers now auctions invs := by
  intro auctions
  induction auctions with
  | nil => intro invs; rfl
  | cons e rest ih =>
    intro invs
    obtain ⟨k, a⟩ := e
    simp only [processAuctionTimers]
    have hstep : processAuction now (processAuction now a invs).1
        (processAuctionTimers now rest (processAuction now a invs).2).2
      = ((processAuction now a invs).1,
         (processAuctionTimers now rest (processAuction now a invs).2).2) :=
      processAuction_idem now a invs _
        (invExtends_trans (processAuction_extends now a invs)
          (processAuctionTimers_extends now rest _))
    rw [hstep, ih]

end DobbyX

/-- C8 counterexample: one sweep over an ended auction with no winning
bid whose seller's inventory is full marks the auction expired WITHOUT
returning the item to the seller (no inventory changes at all) — the
sweep does not settle it as the claim describes, and because the status
is no longer active the escrowed item is lost for good. -/
theorem c8_counterexample :
    DobbyX.processAuctionTimers 100 [("a1", DobbyX.expiredNoBidAuction)]
        [("s", DobbyX.fullInventory)]
      = ([("a1", { DobbyX.expiredNoBidAuction with status := "expired" })],
         [("s", DobbyX.fullInventory)]) ∧
    DobbyX.expiredNoBidAuction.status = "active" ∧
    DobbyX.expiredNoBidAuction.endTime ≤ 100 ∧
    DobbyX.expiredNoBidAuction.sellerId = "s" := by
  decide

/-- C8 (amended): re-running the end-time sweep with no intervening
changes has no additional effect on any auction record or inventory
(settlement cannot double-apply).  But a single sweep settles an expired
auction only when the receiving inventory has capacity: with a winning
bid and a winner that has room, the auction completes, the winner gets
the item and the seller is credited the bid minus the 10% house fee;
with no winning bid and a full seller inventory the auction is marked
expired and the escrowed item is simply dropped. -/
theorem c8_auction_settlement :
    (∀ (now : ℕ) (auctions : List (String × DobbyX.Auction))
        (invs : List (String × DobbyX.Inventory)),
      DobbyX.processAuctionTimers now
          (DobbyX.processAuctionTimers now auctions invs).1
          (DobbyX.processAuctionTimers now auctions invs).2
        = DobbyX.processAuctionTimers now auctions invs) ∧
    (∀ (now : ℕ) (a : DobbyX.Auction)
        (invs : List (String × DobbyX.Inventory)) (w : String)
        (winv sinv : DobbyX.Inventory),
      a.status = "active" → a.endTime ≤ now → a.currentBidder = some w →
      a.startingBid < a.currentBid → DobbyX.mapGet invs w = some winv →
      winv.items.length < winv.capacity → w ≠ a.sellerId →
      DobbyX.mapGet invs a.sellerId = some sinv →
        (DobbyX.processAuction now a invs).1
          = { a with status := "completed", winner := some w } ∧
        DobbyX.mapGet (DobbyX.processAuction now a invs).2 w
          = some { winv with items := winv.items ++ [a.item] } ∧
        DobbyX.mapGet (DobbyX.processAuction now a invs).2 a.sellerId
          = some { sinv with
              credits := sinv.credits + (a.currentBid - a.currentBid / 10) }) ∧
    (∀ (now : ℕ) (a : DobbyX.Auction)
        (invs : List (String × DobbyX.Inventory)) (sinv : DobbyX.Inventory),
      a.status = "active" → a.endTime ≤ now → a.currentBidder = none →
      DobbyX.mapGet invs a.sellerId = some sinv →
      sinv.capacity ≤ sinv.items.length →
        DobbyX.processAuction now a invs
          = ({ a with status := "expired" }, invs)) := by
  refine ⟨fun now auctions invs =>
    DobbyX.processAuctionTimers_idem now auctions invs, ?_, ?_⟩
  · intro now a invs w winv sinv hst hend hb hbid hw hcap hwne hs
    unfold DobbyX.processAuction
    rw [if_pos ⟨hst, hend⟩, hb]
    dsimp only
    rw [if_pos (by omega : a.currentBid > a.startingBid), hw]
    dsimp only
    rw [if_pos hcap]
    dsimp only
    have hs2 : DobbyX.mapGet
        (DobbyX.mapSet invs w { winv with items := winv.items ++ [a.item] })
        a.sellerId = some sinv := by
      rw [DobbyX.mapGet_mapSet_ne invs w a.sellerId _ (Ne.symm hwne)]
      exact hs
    rw [hs2]
    dsimp only
    refine ⟨rfl, ?_, ?_⟩
    · rw [DobbyX.mapGet_mapSet_ne _ a.sellerId w _ hwne,
        DobbyX.mapGet_mapSet_self]
    · rw [DobbyX.mapGet_mapSet_self]
  · intro now a invs sinv hst hend hb hs hfull
    unfold DobbyX.processAuction
    rw [if_pos ⟨hst, hend⟩, hb]
    dsimp only
    rw [hs]
    dsimp only
    rw [if_neg (by omega)]

/-- Witness for the amended C8: a won auction settles against inventories
with room — completed status, item to the winner, 135 of the 150 credits
to the seller. -/
theorem c8_auction_settlement_witness :
    (DobbyX.wonAuction.status = "active" ∧ DobbyX.wonAuction.endTime ≤ 100 ∧
     DobbyX.wonAuction.currentBidder = some "w" ∧
     DobbyX.wonAuction.startingBid < DobbyX.wonAuction.currentBid ∧
     DobbyX.mapGet [("w", DobbyX.roomyInventory), ("s", DobbyX.roomyInventory)]
        "w" = some DobbyX.roomyInventory ∧
     DobbyX.roomyInventory.items.length < DobbyX.roomyInventory.capacity) ∧
    ((DobbyX.processAuction 100 DobbyX.wonAuction
        [("w", DobbyX.roomyInventory), ("s", DobbyX.roomyInventory)]).1
      = { DobbyX.wonAuction with status := "completed", winner := some "w" } ∧
     DobbyX.mapGet (DobbyX.processAuction 100 DobbyX.wonAuction
        [("w", DobbyX.roomyInventory), ("s", DobbyX.roomyInventory)]).2 "w"
      = some { DobbyX.roomyInventory with
          items := DobbyX.roomyInventory.items ++ [DobbyX.wonAuction.item] } ∧
     DobbyX.mapGet (DobbyX.processAuction 100 DobbyX.wonAuction
        [("w", DobbyX.roomyInventory), ("s", DobbyX.roomyInventory)]).2
        DobbyX.wonAuction.sellerId
      = some { DobbyX.roomyInventory with
          credits := DobbyX.roomyInventory.credits
            + (DobbyX.wonAuction.currentBid
                - DobbyX.wonAuction.currentBid / 10) }) :=
  ⟨⟨by decide, by decide, by decide, by decide, by decide, by decide⟩,
   c8_auction_settlement.2.1 100 DobbyX.wonAuction
     [("w", DobbyX.roomyInventory), ("s", DobbyX.roomyInventory)] "w"
     DobbyX.roomyInventory DobbyX.roomyInventory
     (by decide) (by decide) (by decide) (by decide) (by decide) (by decide)
     (by decide) (by decide)⟩
